/-
Verification of the AIFX package integrity engine (aifx-desktop).

Shallow embedding of the Python sources:
  core/packaging/aifm_packager.py   — build_aifm and its canonical hashing
  core/packaging/aifi_packager.py   — build_aifi manifest finalization
  core/conversion/converter_base.py — deterministic zip writer, integrity builder
  core/validation/validator.py      — validate_aifx_package / _verify_integrity
  core/validation/verify_aifm.py    — verify (per-entry hash check)
  core/validation/aifv_validator.py — security gate (_is_unsafe_path, validate_aifv)

Modelling conventions:
  * bytes are `List Nat` (each < 256), Python str is Lean `String`;
  * a JSON document is the inductive `Json` below; Python dicts are ordered
    association lists (insertion order preserved, keys unique in all documents
    the code constructs, matching Python dict semantics);
  * `json.loads (json.dumps m)` deep copies are the identity on `Json` values;
    where a function re-reads the manifest it parsed from the container, the
    parsed value is passed explicitly (the JSON parser itself is not embedded);
  * Python exceptions are `Except PyErr`; `ValidationError` / `ValueError`
    carry their message, dynamic-typing faults (AttributeError/TypeError)
    are collapsed into one constructor since no claim inspects their text.
-/
import Mathlib

namespace Aifx

/-! ## Python string helpers -/

/-- Characters stripped by Python `str.strip()` (ASCII whitespace;
the manifests at issue contain no exotic Unicode whitespace). -/
def isPySpace (c : Char) : Bool :=
  c = ' ' || c = '\t' || c = '\n' || c = '\r' || c = Char.ofNat 11 || c = Char.ofNat 12

/-- Drop trailing characters satisfying `p`. -/
def dropRightWhile (p : Char → Bool) (l : List Char) : List Char :=
  (l.reverse.dropWhile p).reverse

/-- Python `str.strip()` on a character list. -/
def pyStripL (l : List Char) : List Char :=
  dropRightWhile isPySpace (l.dropWhile isPySpace)

/-- Python `str.strip()`. -/
def pyStrip (s : String) : String :=
  ⟨pyStripL s.data⟩

/-- Python `str.lower()` (ASCII; the identifiers compared are ASCII). -/
def asciiLower (s : String) : String :=
  ⟨s.data.map Char.toLower⟩

/-- Python `str.lstrip(".")`: drop all leading dots. -/
def lstripDot (s : String) : String :=
  ⟨s.data.dropWhile (· = '.')⟩

/-- Lowercase hex digit. -/
def hexDigit (n : Nat) : Char :=
  if n < 10 then Char.ofNat (48 + n) else Char.ofNat (87 + n)

/-- Two lowercase hex digits of a byte. -/
def byteHex (b : Nat) : String :=
  ⟨[hexDigit (b / 16 % 16), hexDigit (b % 16)]⟩

/-- UTF-8 encoding of one character (as Python `str.encode("utf-8")`). -/
def utf8Char (c : Char) : List Nat :=
  let n := c.toNat
  if n < 128 then [n]
  else if n < 2048 then [192 + n / 64, 128 + n % 64]
  else if n < 65536 then [224 + n / 4096, 128 + n / 64 % 64, 128 + n % 64]
  else [240 + n / 262144, 128 + n / 4096 % 64, 128 + n / 64 % 64, 128 + n % 64]

/-- UTF-8 encoding of a string as a byte list. -/
def utf8Bytes (s : String) : List Nat :=
  (s.data.map utf8Char).flatten

/-! ## SHA-256 (pure, over byte lists) -/

def M32 : Nat := 4294967296

def add32 (a b : Nat) : Nat := (a + b) % M32

def rotr32 (n x : Nat) : Nat := ((x >>> n) ||| (x <<< (32 - n))) % M32

def not32 (x : Nat) : Nat := x ^^^ (M32 - 1)

def shaK : List Nat :=
  [1116352408, 1899447441, 3049323471, 3921009573, 961987163,
   1508970993, 2453635748, 2870763221, 3624381080, 310598401,
   607225278, 1426881987, 1925078388, 2162078206, 2614888103,
   3248222580, 3835390401, 4022224774, 264347078, 604807628,
   770255983, 1249150122, 1555081692, 1996064986, 2554220882,
   2821834349, 2952996808, 3210313671, 3336571891, 3584528711,
   113926993, 338241895, 666307205, 773529912, 1294757372,
   1396182291, 1695183700, 1986661051, 2177026350, 2456956037,
   2730485921, 2820302411, 3259730800, 3345764771, 3516065817,
   3600352804, 4094571909, 275423344, 430227734, 506948616,
   659060556, 883997877, 958139571, 1322822218, 1537002063,
   1747873779, 1955562222, 2024104815, 2227730452, 2361852424,
   2428436474, 2756734187, 3204031479, 3329325298]

def shaH0 : List Nat :=
  [1779033703, 3144134277, 1013904242, 2773480762,
   1359893119, 2600822924, 528734635, 1541459225]

/-- Big-endian 8-byte encoding of a (< 2^64) length. -/
def be8 (n : Nat) : List Nat :=
  [n >>> 56 % 256, n >>> 48 % 256, n >>> 40 % 256, n >>> 32 % 256,
   n >>> 24 % 256, n >>> 16 % 256, n >>> 8 % 256, n % 256]

/-- SHA-256 padding: append 0x80, zeros, and the 64-bit big-endian bit length. -/
def shaPad (msg : List Nat) : List Nat :=
  let len := msg.length
  let zeros := (119 - len % 64) % 64
  msg ++ [128] ++ List.replicate zeros 0 ++ be8 (len * 8)

/-- Group bytes into big-endian 32-bit words. -/
def bytesToWordsBE : List Nat → List Nat
  | b0 :: b1 :: b2 :: b3 :: rest =>
      (((b0 * 256 + b1) * 256 + b2) * 256 + b3) :: bytesToWordsBE rest
  | _ => []

/-- Split a word list into 16-word blocks (input length is a multiple of 16). -/
def chunk16 : List Nat → List (List Nat)
  | w0 :: w1 :: w2 :: w3 :: w4 :: w5 :: w6 :: w7 ::
    w8 :: w9 :: w10 :: w11 :: w12 :: w13 :: w14 :: w15 :: rest =>
      [w0, w1, w2, w3, w4, w5, w6, w7, w8, w9, w10, w11, w12, w13, w14, w15]
        :: chunk16 rest
  | _ => []

def smallSigma0 (x : Nat) : Nat := rotr32 7 x ^^^ rotr32 18 x ^^^ (x >>> 3)

def smallSigma1 (x : Nat) : Nat := rotr32 17 x ^^^ rotr32 19 x ^^^ (x >>> 10)

def bigSigma0 (x : Nat) : Nat := rotr32 2 x ^^^ rotr32 13 x ^^^ rotr32 22 x

def bigSigma1 (x : Nat) : Nat := rotr32 6 x ^^^ rotr32 11 x ^^^ rotr32 25 x

/-- Extend 16 message words to the 64-entry schedule. -/
def extendW (block : List Nat) : List Nat :=
  (List.range 48).foldl
    (fun acc _ =>
      let n := acc.length
      let v := (acc.getD (n - 16) 0 + acc.getD (n - 7) 0 +
                smallSigma0 (acc.getD (n - 15) 0) +
                smallSigma1 (acc.getD (n - 2) 0)) % M32
      acc ++ [v])
    block

/-- One SHA-256 round on the 8-word state. -/
def shaRound (st : List Nat) (kw : Nat × Nat) : List Nat :=
  match st with
  | [a, b, c, d, e, f, g, h] =>
      let t1 := (h + bigSigma1 e + ((e &&& f) ^^^ (not32 e &&& g)) + kw.1 + kw.2) % M32
      let t2 := (bigSigma0 a + ((a &&& b) ^^^ (a &&& c) ^^^ (b &&& c))) % M32
      [(t1 + t2) % M32, a, b, c, (d + t1) % M32, e, f, g]
  | other => other

/-- Compression of one 16-word block into the running hash state. -/
def shaCompress (hs : List Nat) (block : List Nat) : List Nat :=
  let final := ((extendW block).zip shaK).foldl shaRound hs
  hs.zipWith add32 final

/-- SHA-256 digest bytes of a byte-list message. -/
def sha256Bytes (msg : List Nat) : List Nat :=
  let hs := (chunk16 (bytesToWordsBE (shaPad msg))).foldl shaCompress shaH0
  (hs.map (fun w => [w >>> 24 % 256, w >>> 16 % 256, w >>> 8 % 256, w % 256])).flatten

/-- `hashlib.sha256(b).hexdigest()`: lowercase hex digest string. -/
def sha256Hex (msg : List Nat) : String :=
  String.join ((sha256Bytes msg).map byteHex)

/-! ## JSON documents

A parsed JSON document. Python dicts are ordered association lists:
insertion order is preserved (as in CPython) and every document the code
constructs or parses has unique keys. Floating-point numbers do not occur
in any manifest (the spec restricts manifests to strings, integers,
booleans, null, lists and maps), so `num` carries `Int`. -/

inductive Json where
  | null
  | bool (b : Bool)
  | num (n : Int)
  | str (s : String)
  | arr (elems : List Json)
  | obj (fields : List (String × Json))

/-- Python string comparison: lexicographic by Unicode code point. -/
def charListLe : List Char → List Char → Bool
  | [], _ => true
  | _ :: _, [] => false
  | a :: as, b :: bs =>
      if a.toNat < b.toNat then true
      else if b.toNat < a.toNat then false
      else charListLe as bs

def strLe (a b : String) : Bool := charListLe a.data b.data

/-- `sorted(d.items())` by key, as `json.dumps(..., sort_keys=True)` performs
at every object node (Python `sorted` is stable; keys are unique anyway). -/
def sortFields (kvs : List (String × Json)) : List (String × Json) :=
  List.insertionSort (fun a b => strLe a.1 b.1 = true) kvs

mutual
/-- Recursively sort every object's keys. `json.dumps(m, sort_keys=True)`
serializes exactly the key-sorted document, so the canonical serializer
below is factored as plain serialization after `sortKeys`. -/
def Json.sortKeys : Json → Json
  | .null => .null
  | .bool b => .bool b
  | .num n => .num n
  | .str s => .str s
  | .arr xs => .arr (sortKeysArr xs)
  | .obj kvs => .obj (sortFields (sortKeysFields kvs))

def sortKeysArr : List Json → List Json
  | [] => []
  | x :: rest => x.sortKeys :: sortKeysArr rest

def sortKeysFields : List (String × Json) → List (String × Json)
  | [] => []
  | (k, v) :: rest => (k, v.sortKeys) :: sortKeysFields rest
end

/-- Literal `\x7b` character (left curly brace). -/
def lbrace : String := ⟨[Char.ofNat 123]⟩

/-- Literal `\x7d` character (right curly brace). -/
def rbrace : String := ⟨[Char.ofNat 125]⟩

/-- Escape one character as Python `json.dumps` with `ensure_ascii=False`
does: only the quote, backslash and control characters are escaped. -/
def jsonEscapeChar (c : Char) : String :=
  if c = '"' then "\\\""
  else if c = '\\' then "\\\\"
  else if c = '\n' then "\\n"
  else if c = '\r' then "\\r"
  else if c = '\t' then "\\t"
  else if c = Char.ofNat 8 then "\\b"
  else if c = Char.ofNat 12 then "\\f"
  else if c.toNat < 32 then "\\u00" ++ byteHex c.toNat
  else ⟨[c]⟩

/-- A JSON string literal: quoted and escaped. -/
def jsonStr (s : String) : String :=
  "\"" ++ String.join (s.data.map jsonEscapeChar) ++ "\""

mutual
/-- `json.dumps(j, separators=(",", ":"), ensure_ascii=False)`: compact,
insertion-ordered serialization (key sorting handled by `Json.sortKeys`). -/
def dumpCompact : Json → String
  | .null => "null"
  | .bool b => if b then "true" else "false"
  | .num n => toString n
  | .str s => jsonStr s
  | .arr xs => "[" ++ dumpCompactArr xs ++ "]"
  | .obj kvs => lbrace ++ dumpCompactFields kvs ++ rbrace

def dumpCompactArr : List Json → String
  | [] => ""
  | [x] => dumpCompact x
  | x :: rest => dumpCompact x ++ "," ++ dumpCompactArr rest

def dumpCompactFields : List (String × Json) → String
  | [] => ""
  | [(k, v)] => jsonStr k ++ ":" ++ dumpCompact v
  | (k, v) :: rest => jsonStr k ++ ":" ++ dumpCompact v ++ "," ++ dumpCompactFields rest
end

def spaces (n : Nat) : String := ⟨List.replicate n ' '⟩

mutual
/-- `json.dumps(j, indent=2, ensure_ascii=False)`: pretty-printed with
two-space indentation, items separated by `,\n`, key separator `": "`,
insertion order preserved. `ind` is the indentation of the current node. -/
def dumpIndent2 (ind : Nat) : Json → String
  | .null => "null"
  | .bool b => if b then "true" else "false"
  | .num n => toString n
  | .str s => jsonStr s
  | .arr [] => "[]"
  | .arr (x :: rest) =>
      "[\n" ++ dumpIndent2Arr (ind + 2) (x :: rest) ++ "\n" ++ spaces ind ++ "]"
  | .obj [] => lbrace ++ rbrace
  | .obj (kv :: rest) =>
      lbrace ++ "\n" ++ dumpIndent2Fields (ind + 2) (kv :: rest) ++ "\n" ++ spaces ind ++ rbrace

def dumpIndent2Arr (ind : Nat) : List Json → String
  | [] => ""
  | [x] => spaces ind ++ dumpIndent2 ind x
  | x :: rest => spaces ind ++ dumpIndent2 ind x ++ ",\n" ++ dumpIndent2Arr ind rest

def dumpIndent2Fields (ind : Nat) : List (String × Json) → String
  | [] => ""
  | [(k, v)] => spaces ind ++ jsonStr k ++ ": " ++ dumpIndent2 ind v
  | (k, v) :: rest =>
      spaces ind ++ jsonStr k ++ ": " ++ dumpIndent2 ind v ++ ",\n" ++ dumpIndent2Fields ind rest
end

/-! ## Python dict / truthiness helpers -/

/-- Python truthiness of a JSON value. -/
def jtruthy : Json → Bool
  | .null => false
  | .bool b => b
  | .num n => n ≠ 0
  | .str s => s ≠ ""
  | .arr xs => !xs.isEmpty
  | .obj kvs => !kvs.isEmpty

/-- `d.get(k)` on an association list (first match; keys are unique). -/
def jget (kvs : List (String × Json)) (k : String) : Option Json :=
  (kvs.find? (fun p => p.1 = k)).map (·.2)

/-- Python `x or default` applied to an optional lookup result:
`None` and falsy values are replaced by the default. -/
def jor (x : Option Json) (d : Json) : Json :=
  match x with
  | none => d
  | some v => if jtruthy v then v else d

/-- `d[k] = v` on a dict: update in place if the key exists (its position
is preserved), otherwise append the new key at the end — CPython insertion
order semantics. -/
def jset (kvs : List (String × Json)) (k : String) (v : Json) : List (String × Json) :=
  if kvs.any (fun p => p.1 = k) then
    kvs.map (fun p => if p.1 = k then (k, v) else p)
  else kvs ++ [(k, v)]

/-- Python `json_value == some_string` (a str compares equal only to an
equal str; values of other types are never equal to a str). -/
def jeqStr (j : Json) (s : String) : Bool :=
  match j with
  | .str t => t = s
  | _ => false

/-- `v is True`: strict boolean check from `validator._bool_is_true`. -/
def bool_is_true (v : Json) : Bool :=
  match v with
  | .bool b => b
  | _ => false

/-- Python `str(v)` for the scalar values the code feeds through it.
Containers never reach `str()` in any claim-relevant path; their Python
`repr` formatting is abbreviated here. -/
def pyStr : Json → String
  | .null => "None"
  | .bool b => if b then "True" else "False"
  | .num n => toString n
  | .str s => s
  | .arr _ => "[...]"
  | .obj _ => "..."

/-- Python `repr` of a string as used by `f"{x!r}"` (single-quoted; none of
the strings formatted this way contain quotes or escapes). -/
def pyRepr (s : String) : String :=
  "\x27" ++ s ++ "\x27"

/-- `f"{x!r}"` for a JSON value (str gets quoted, scalars as `str()`). -/
def pyReprJ (j : Json) : String :=
  match j with
  | .str s => pyRepr s
  | v => pyStr v

/-! ## Python exceptions -/

/-- The exceptions the embedded code can raise. Dynamic-typing faults
(`AttributeError`/`TypeError`) are collapsed into one constructor: no
claim inspects their message text. -/
inductive PyErr where
  | validation (msg : String)
  | value (msg : String)
  | keyErr (key : String)
  | typeErr
deriving DecidableEq, Repr

/-- `str(e)` of an exception, as interpolated into report messages
(the dynamic-typing message text is abbreviated; no claim inspects it). -/
def errText : PyErr → String
  | .validation msg => msg
  | .value msg => msg
  | .keyErr k => pyRepr k
  | .typeErr => "AttributeError"

/-- `d.get(k)` where the receiver may not be a dict: Python raises
`AttributeError` on a non-dict receiver. -/
def pyGet (j : Json) (k : String) : Except PyErr (Option Json) :=
  match j with
  | .obj kvs => .ok (jget kvs k)
  | _ => .error .typeErr

/-- `(x or "").strip()`: falsy values become the empty string, a truthy
non-string raises `AttributeError` at `.strip()`. -/
def orStrip (x : Option Json) : Except PyErr String :=
  match jor x (.str "") with
  | .str s => .ok (pyStrip s)
  | _ => .error .typeErr

/-- A truthy non-string raises at `.lower()` / `.strip()`; falsy values
were already replaced by `""` via `or`. -/
def asStr : Json → Except PyErr String
  | .str s => .ok s
  | _ => .error .typeErr

/-! ## ZIP container model

A container is its ordered entry list. Entry data is uncompressed content
bytes (hash checks read decompressed bytes; compression is invisible to
every claim). `dateTime` and `externalAttr` are the per-entry metadata
`zipfile` stores; two archives are byte-identical iff their entry lists
(names, bytes, metadata) are equal. -/

structure ZipEntry where
  filename : String
  data : List Nat
  dateTime : Nat × Nat × Nat × Nat × Nat × Nat
  externalAttr : Nat
deriving DecidableEq, Repr

abbrev Container := List ZipEntry

/-- `z.namelist()`. -/
def znamelist (z : Container) : List String :=
  z.map (·.filename)

/-- `z.read(name)` / `z.open(name)`: `zipfile` resolves a name to its last
entry; `none` models the `KeyError` for a missing name. -/
def zread (z : Container) (name : String) : Option (List Nat) :=
  (z.reverse.find? (fun e => e.filename = name)).map (·.data)

/-! ## Shared manifest transformations -/

/-- The hash-input view: a deep copy of the manifest with the
`"manifest.json"` key removed from `integrity.hashed_files`. This is the
common semantics of the four source variants
(`aifm_packager.build_aifm` lines 89–92 and `aifv_packager.build_aifv`
lines 202–204: copy, then `del`/`pop` on `(m2.get("integrity") or
{}).get("hashed_files") or {}`; `aifi_packager.build_aifi` lines 115–118:
`.get(..., {})` then `pop`; `validator._verify_integrity` lines 82–85 and
`verify_aifm.canonical_manifest_bytes` lines 47–51: same copy-and-remove).
On a manifest whose `integrity` / `hashed_files` are absent or empty the
removal is a no-op in all variants; a truthy non-dict in either position
raises in the builder/validator variants and is swallowed in
`verify_aifm` — no such value is constructed or reachable past the shape
checks that precede each call, so all variants coincide with this
function on their actual inputs. Deep copies (`json.loads(json.dumps m)`)
are the identity on `Json` values. -/
def removeManifestEntry (m : Json) : Json :=
  match m with
  | .obj kvs =>
      match jget kvs "integrity" with
      | some (.obj ikvs) =>
          match jget ikvs "hashed_files" with
          | some (.obj hkvs) =>
              .obj (jset kvs "integrity" (.obj (jset ikvs "hashed_files"
                (.obj (hkvs.filter (fun p => ¬ (p.1 = "manifest.json")))))))
          | _ => m
      | _ => m
  | _ => m

/-- The authorship declaration text `AIFX_SDA_001_TEXT`
(core/provenance/sda_templates.py). -/
def AIFX_SDA_001_TEXT : String :=
  "I affirm that I directed the creation of this work using the AI tools listed in the provenance section. " ++
  "I confirm that I exercised creative control over prompts, selection, arrangement, and final output. " ++
  "I understand that this declaration represents Self-Declared Authorship (SDA) under the AIFX standard."

/-! ## core/packaging/aifm_packager.py -/

namespace AifmPackager

/-- `_sha256_bytes`. -/
def sha256_bytes (b : List Nat) : String := sha256Hex b

/-- `_canonical_manifest_bytes`: `json.dumps(manifest, sort_keys=True,
separators=(",", ":"), ensure_ascii=False).encode("utf-8")`. -/
def canonical_manifest_bytes (manifest : Json) : List Nat :=
  utf8Bytes (dumpCompact manifest.sortKeys)

/-- `audio_ext = audio_path.suffix.lower().lstrip(".") or "bin"`;
`audio_rel = f"assets/audio.\x7baudio_ext\x7d"`. `audioSuffix` is the
input path's extension including its leading dot (possibly empty). -/
def audioRel (audioSuffix : String) : String :=
  let ext := lstripDot (asciiLower audioSuffix)
  "assets/audio." ++ (if ext = "" then "bin" else ext)

/-- `cover_rel = "assets/cover.jpg"`. -/
def coverRel : String := "assets/cover.jpg"

/-- The manifest of `build_aifm` (lines 54–86) with a given
`integrity.hashed_files` list: the governance fields in source order,
then the integrity block appended by the line-82 assignment. The final
line-95 assignment only replaces the `hashed_files` list, so both the
pre-hash and the finalized manifest are instances of this shape. -/
def aifmManifest (title creator_name creator_contact declaration mode : String)
    (audioSuffix : String) (hasCover : Bool)
    (hashedFiles : List (String × Json)) : Json :=
  .obj ([("aifx", .obj [("version", .str "0")]),
         ("work", .obj [("title", .str (pyStrip title))]),
         ("creator", .obj [("name", .str (pyStrip creator_name)),
                           ("contact", .str (pyStrip creator_contact))]),
         ("mode", .str (pyStrip mode)),
         ("ai_generated", .bool true),
         ("verification_tier", .str "SDA"),
         ("declaration", .str (pyStrip declaration)),
         ("format", .str "AIFM"),
         ("assets", .obj ([("audio", .str (audioRel audioSuffix))] ++
            (if hasCover then [("cover", .str coverRel)] else [])))] ++
        [("integrity", .obj
           [("algorithm", .str "sha256"),
            ("manifest_hash_mode", .str "canonical_excludes_self"),
            ("hashed_files", .obj hashedFiles)])])

/-- `hashed_files` before the manifest entry is added (lines 76–80). -/
def aifmHashedFiles0 (audioSuffix : String) (audioBytes : List Nat)
    (coverBytes : Option (List Nat)) : List (String × Json) :=
  [(audioRel audioSuffix, .obj [("sha256", .str (sha256_bytes audioBytes))])] ++
  (match coverBytes with
   | some cb => [(coverRel, .obj [("sha256", .str (sha256_bytes cb))])]
   | none => [])

/-- The finalized manifest returned by `build_aifm` (lines 49–95): hash
table built, the canonical self-excluding manifest hash computed on the
copy with its own entry removed (a no-op removal here — `manifest.json`
is not yet a key), and the `manifest.json` entry appended (a fresh dict
key is inserted at the end). -/
def build_aifm_manifest (audioSuffix : String) (audioBytes : List Nat)
    (coverBytes : Option (List Nat))
    (title creator_name creator_contact declaration mode : String) : Json :=
  let hashed0 := aifmHashedFiles0 audioSuffix audioBytes coverBytes
  let manifest0 := aifmManifest title creator_name creator_contact declaration mode
    audioSuffix coverBytes.isSome hashed0
  let m2 := removeManifestEntry manifest0
  let manifest_hash := sha256_bytes (canonical_manifest_bytes m2)
  aifmManifest title creator_name creator_contact declaration mode
    audioSuffix coverBytes.isSome
    (hashed0 ++ [("manifest.json", .obj [("sha256", .str manifest_hash)])])

/-- `manifest_bytes = json.dumps(manifest, indent=2,
ensure_ascii=False).encode("utf-8")` (line 97). -/
def build_aifm_manifest_bytes (audioSuffix : String) (audioBytes : List Nat)
    (coverBytes : Option (List Nat))
    (title creator_name creator_contact declaration mode : String) : List Nat :=
  utf8Bytes (dumpIndent2 0 (build_aifm_manifest audioSuffix audioBytes coverBytes
    title creator_name creator_contact declaration mode))

/-- The container written by `build_aifm` (lines 100–104): three
`z.writestr` calls in order. `writestr` with a plain name stamps the entry
with the wall-clock `time.localtime()` — the `now` argument — and
external attributes `0o600 << 16`. -/
def build_aifm_zip (audioSuffix : String) (audioBytes : List Nat)
    (coverBytes : Option (List Nat))
    (title creator_name creator_contact declaration mode : String)
    (now : Nat × Nat × Nat × Nat × Nat × Nat) : Container :=
  [⟨"manifest.json", build_aifm_manifest_bytes audioSuffix audioBytes coverBytes
      title creator_name creator_contact declaration mode, now, 0o600 <<< 16⟩,
   ⟨audioRel audioSuffix, audioBytes, now, 0o600 <<< 16⟩] ++
  (match coverBytes with
   | some cb => [⟨coverRel, cb, now, 0o600 <<< 16⟩]
   | none => [])

end AifmPackager

/-! ## core/packaging/aifi_packager.py -/

namespace AifiPackager

/-- `_canonical_json_bytes` (same canonical form as the AIFM packager). -/
def canonical_json_bytes (obj : Json) : List Nat :=
  utf8Bytes (dumpCompact obj.sortKeys)

/-- The manifest of `build_aifi` (lines 91–113) with a given
`integrity.hashed_files` item list. `imageExt` is the lowercased
extension including the dot (`image_path.suffix.lower()`, one of the
allowed types); `relImage = f"assets/image\x7bext\x7d"`. -/
def aifiManifest (imageExt : String) (imageHash : String)
    (title creator_name creator_contact mode aifx_version ptool : String)
    (supporting : List String) (hashedFiles : List (String × Json)) : Json :=
  let relImage := "assets/image" ++ imageExt
  .obj [("aifx_version", .str aifx_version),
        ("type", .str "AIFI"),
        ("work", .obj [("title", .str title)]),
        ("creator", .obj [("name", .str creator_name), ("contact", .str creator_contact)]),
        ("mode", .str mode),
        ("verification_tier", .str "SDA"),
        ("ai_generated", .bool true),
        ("declaration", .str AIFX_SDA_001_TEXT),
        ("assets", .obj [(relImage, .obj [("sha256", .str imageHash)])]),
        ("provenance", .obj ([("primary_tool", .obj [("name", .str ptool)])] ++
          (if supporting.isEmpty then [] else
            [("supporting_tools", .arr (supporting.map (fun s => .obj [("name", .str s)])))]))),
        ("integrity", .obj
          [("algorithm", .str "sha256"),
           ("manifest_hash_mode", .str "canonical_excludes_self"),
           ("hashed_files", .obj hashedFiles)])]

/-- The initial hash table of `build_aifi` (lines 109–112): the image
entry plus the `manifest.json` placeholder. -/
def aifiHashed0 (imageExt imageHash : String) : List (String × Json) :=
  [("assets/image" ++ imageExt, .obj [("sha256", .str imageHash)])]

/-- The finalized manifest of `build_aifi` (lines 91–121): the
`manifest.json` entry starts as the placeholder `\x7b"sha256": ""\x7d`,
the canonical hash is computed on the copy with that entry popped, and
the placeholder's `sha256` is overwritten in place. `ptool` and
`supporting` are the stripped, non-empty provenance names the code
validated. -/
def build_aifi_manifest (imageExt : String) (imageBytes : List Nat)
    (title creator_name creator_contact mode aifx_version ptool : String)
    (supporting : List String) : Json :=
  let imageHash := sha256Hex imageBytes
  let manifest0 := aifiManifest imageExt imageHash title creator_name creator_contact
    mode aifx_version ptool supporting
    (aifiHashed0 imageExt imageHash ++ [("manifest.json", .obj [("sha256", .str "")])])
  let manifest_for_hash := removeManifestEntry manifest0
  let manifest_hash := sha256Hex (canonical_json_bytes manifest_for_hash)
  aifiManifest imageExt imageHash title creator_name creator_contact
    mode aifx_version ptool supporting
    (aifiHashed0 imageExt imageHash ++ [("manifest.json", .obj [("sha256", .str manifest_hash)])])

end AifiPackager

/-! ## core/conversion/converter_base.py -/

namespace ConverterBase

/-- `sha256_file`: digest and byte length of a staged file's content. -/
def sha256_file (b : List Nat) : String × Nat :=
  (sha256Hex b, b.length)

/-- `sorted([p for p in staging_root.rglob("*") if p.is_file()])`: the
staging directory as (container-relative path, content bytes) pairs in
sorted path order. `Path` ordering agrees with string ordering of the
relative paths for every layout the packagers stage (flat `assets/…`
plus `manifest.json`). -/
def sortedFiles (files : List (String × List Nat)) : List (String × List Nat) :=
  List.insertionSort (fun a b => strLe a.1 b.1 = true) files

/-- `manifest_for_hash` (lines 90–93): a shallow-copied manifest whose
`integrity.hashed_files` is replaced by the given table (`integrity`
itself defaults to `\x7b\x7d` when absent or falsy). -/
def manifestForHash (manifest : Json) (hashed : List (String × Json)) : Json :=
  match manifest with
  | .obj kvs =>
      let ikvs := match jget kvs "integrity" with
        | some (.obj ik) => ik
        | _ => []
      .obj (jset kvs "integrity" (.obj (jset ikvs "hashed_files" (.obj hashed))))
  | m => m

/-- The hashing loop of `compute_integrity_canonical_excludes_self`
(lines 81–87): every staged file except `manifest.json`, in sorted path
order, mapped to its digest record. -/
def hashedTable (files : List (String × List Nat)) : List (String × Json) :=
  (sortedFiles files).filterMap (fun f =>
    if f.1 = "manifest.json" then none
    else
      let ds := sha256_file f.2
      some (f.1, Json.obj [("sha256", .str ds.1), ("bytes", .num ds.2)]))

/-- `compute_integrity_canonical_excludes_self` (lines 71–104): hash every
staged file except `manifest.json`, then append the manifest's own entry,
whose digest is the canonical compact-sorted serialization of the
manifest carrying the self-excluding table. -/
def compute_integrity_canonical_excludes_self
    (files : List (String × List Nat)) (manifest : Json) : List (String × Json) :=
  let hashed := hashedTable files
  let canonical_bytes := utf8Bytes (dumpCompact (manifestForHash manifest (hashed)).sortKeys)
  hashed ++ [("manifest.json", .obj
    [("sha256", .str (sha256Hex canonical_bytes)), ("bytes", .num canonical_bytes.length)])]

/-- `write_zip_deterministic` (lines 107–133): entries in sorted path
order, each stamped with the fixed timestamp `(1980, 1, 1, 0, 0, 0)` and
external attributes `0o600 << 16`. -/
def write_zip_deterministic (files : List (String × List Nat)) : Container :=
  (sortedFiles files).map (fun f => ⟨f.1, f.2, (1980, 1, 1, 0, 0, 0), 0o600 <<< 16⟩)

/-- The `hashed_files` assignment of `build_package` (lines 149–151):
`final_manifest.setdefault("integrity", \x7b\x7d)` then
`final_manifest["integrity"]["hashed_files"] = hashed_files`. -/
def setHashedFiles (manifest : Json) (hashed : List (String × Json)) : Json :=
  match manifest with
  | .obj kvs =>
      match jget kvs "integrity" with
      | some (.obj ikvs) => .obj (jset kvs "integrity" (.obj (jset ikvs "hashed_files" (.obj hashed))))
      | some _ => manifest
      | none => .obj (kvs ++ [("integrity", .obj [("hashed_files", .obj hashed)])])
  | m => m

/-- `build_package` (lines 136–163), staging modelled as byte files:
write the preliminary manifest, compute the integrity table over the
staging area (the preliminary `manifest.json` is skipped by the hashing
loop), write the final manifest, and zip deterministically. Returns the
final manifest and the container. -/
def build_package (staged : List (String × List Nat)) (manifest : Json) :
    Json × Container :=
  let prelim := utf8Bytes (dumpIndent2 0 manifest ++ "\n")
  let hashed := compute_integrity_canonical_excludes_self
    (staged ++ [("manifest.json", prelim)]) manifest
  let final_manifest := setHashedFiles manifest hashed
  let finalBytes := utf8Bytes (dumpIndent2 0 final_manifest ++ "\n")
  (final_manifest, write_zip_deterministic (staged ++ [("manifest.json", finalBytes)]))

end ConverterBase

/-! ## core/validation/validator.py -/

/-- A value stored in the `checks` map of the validation report
(the code stores only booleans and strings there). -/
inductive CheckVal where
  | b (b : Bool)
  | s (s : String)
deriving DecidableEq, Repr

/-- The report dict built by `validate_aifx_package`. -/
structure VResults where
  package : String
  valid : Bool
  errors : List String
  warnings : List String
  checks : List (String × CheckVal)
  dryRun : Bool
deriving DecidableEq, Repr

/-- `results["checks"][k] = v` (dict insertion-order semantics). -/
def cset (checks : List (String × CheckVal)) (k : String) (v : CheckVal) :
    List (String × CheckVal) :=
  if checks.any (fun p => p.1 = k) then
    checks.map (fun p => if p.1 = k then (k, v) else p)
  else checks ++ [(k, v)]

namespace Validator

/-- `_canonical_manifest_bytes` — textually identical to the AIFM
packager's function. -/
def canonical_manifest_bytes (manifest : Json) : List Nat :=
  utf8Bytes (dumpCompact manifest.sortKeys)

/-- `_get_aifx_version`: `(aifx.get("version") or manifest.get("version")
or "")`, then `str(...).strip()`. -/
def get_aifx_version (mkvs : List (String × Json)) : Except PyErr String := do
  let aifx := jor (jget mkvs "aifx") (.obj [])
  let verA ← pyGet aifx "version"
  let ver := jor verA (jor (jget mkvs "version") (.str ""))
  pure (pyStrip (pyStr ver))

/-- One iteration of `_verify_integrity`'s
`for relpath, meta in hashed_files.items()` loop (lines 53–70); the
`continue` statements end the iteration, so each iteration is one run of
this function. -/
def verify_file_entry (z : Container) (kv : String × Json) : Except PyErr Unit := do
  let relpath := kv.1
  match kv.2 with
  | .obj mv =>
    let expected := jget mv "sha256"
    if ¬ jtruthy (jor expected .null) then
      throw (.validation ("Missing sha256 for " ++ relpath))
    else if relpath = "manifest.json" then
      pure ()
    else
      match zread z relpath with
      | none => throw (.validation ("File not found in package: " ++ relpath))
      | some data =>
        let actual := sha256Hex data
        if ¬ jeqStr (jor expected .null) actual then
          throw (.validation ("Hash mismatch for " ++ relpath ++ ": expected " ++
            pyStr (jor expected .null) ++ ", got " ++ actual))
        else
          pure ()
  | _ =>
    throw (.validation ("integrity.hashed_files[" ++ pyRepr relpath ++ "] is not an object"))

/-- `_verify_integrity` (lines 39–96): raises `ValidationError` at the
first failed check and returns silently on success. The manifest argument
is the parsed `manifest.json` document (a dict in every reachable call). -/
def verify_integrity (z : Container) (mkvs : List (String × Json)) :
    Except PyErr Unit := do
  let integrity := jor (jget mkvs "integrity") (.obj [])
  let algoJ ← pyGet integrity "algorithm"
  let algoS ← asStr (jor algoJ (.str ""))
  let algo := asciiLower algoS
  let hfJ ← pyGet integrity "hashed_files"
  let hashed_files := jor hfJ (.obj [])
  let modeJ ← pyGet integrity "manifest_hash_mode"
  let mode := jor modeJ (.str "")

  if ¬ jtruthy integrity then
    throw (.validation "manifest.integrity missing")
  if ¬ (algo = "sha256") then
    throw (.validation ("Unsupported integrity.algorithm: " ++ pyRepr algo))
  let hkvs ← match hashed_files with
    | .obj (kv :: rest) => pure (kv :: rest)
    | _ => throw (PyErr.validation "integrity.hashed_files missing or empty")

  -- Verify every file listed (except manifest.json handled below)
  hkvs.forM (verify_file_entry z)

  -- Verify manifest.json hash
  if ¬ hkvs.any (fun p => p.1 = "manifest.json") then
    throw (.validation ("integrity.hashed_files[\x27manifest.json\x27] missing"))
  let mjMeta := jor (jget hkvs "manifest.json") (.obj [])
  let expected_manifest_hash ← pyGet mjMeta "sha256"
  let emh := jor expected_manifest_hash .null
  if ¬ jtruthy emh then
    throw (.validation "integrity.hashed_files[\x27manifest.json\x27].sha256 missing")

  let actual_manifest_hash ←
    if jeqStr mode "canonical_excludes_self" then
      -- Canonicalize manifest WITHOUT the manifest.json entry
      pure (sha256Hex (canonical_manifest_bytes (removeManifestEntry (.obj mkvs))))
    else
      -- fallback: hash actual manifest.json bytes in the zip
      match zread z "manifest.json" with
      | some data => pure (sha256Hex data)
      | none => throw (PyErr.keyErr "manifest.json")

  if ¬ jeqStr emh actual_manifest_hash then
    throw (.validation ("Hash mismatch for manifest.json: expected " ++
      pyStr emh ++ ", got " ++ actual_manifest_hash))

/-- The body of `validate_aifx_package` after the manifest parse
(lines 136–187), threading the partially-built report so that an escaping
exception keeps the checks and errors recorded so far (the code mutates
`results` in place). Returns the report and the exception that escaped to
the outer handler, if any. -/
def validateBody (z : Container) (mkvs : List (String × Json)) (r0 : VResults) :
    VResults × Option PyErr :=
  -- --- Basic version ---
  match get_aifx_version mkvs with
  | .error e => (r0, some e)
  | .ok aifx_version =>
  let verVal := CheckVal.s (if aifx_version = "" then "unknown" else aifx_version)
  let r1 := { r0 with checks := cset r0.checks "aifx_version" verVal }
  -- --- Author / Creator ---
  let author := match jget mkvs "author" with
    | some (.str s) => pyStrip s   -- `(x or "").strip()` equals strip(x) for a str
    | _ => ""
  let creator := jor (jget mkvs "creator") (.obj [])
  let creatorNameE : Except PyErr String := match creator with
    | .obj ckvs => orStrip (jget ckvs "name")
    | _ => .ok ""
  match creatorNameE with
  | .error e => (r1, some e)
  | .ok creator_name =>
  let creatorContactE : Except PyErr String := match creator with
    | .obj ckvs => orStrip (jget ckvs "contact")
    | _ => .ok ""
  match creatorContactE with
  | .error e => (r1, some e)
  | .ok creator_contact =>
  -- --- AIFM REQUIRED IDENTITY ---
  let work := jor (jget mkvs "work") (.obj [])
  let titleE : Except PyErr String := match work with
    | .obj wkvs => orStrip (jget wkvs "title")
    | _ => .ok ""
  match titleE with
  | .error e => (r1, some e)
  | .ok title =>
  let title_ok := title ≠ ""
  let r2 := { r1 with
    checks := cset r1.checks "work.title" (.b title_ok),
    errors := r1.errors ++ (if title_ok then [] else ["work.title missing (required)"]) }
  let author_ok := author ≠ "" ∨ creator_name ≠ ""
  let r3 := { r2 with
    checks := cset r2.checks "author" (.b author_ok),
    errors := r2.errors ++ (if author_ok then [] else
      ["author missing (expected \x27author\x27 or \x27creator.name\x27)"]) }
  let contact_ok := creator_contact ≠ ""
  let r4 := { r3 with
    checks := cset r3.checks "contact" (.b contact_ok),
    errors := r3.errors ++ (if contact_ok then [] else
      ["creator.contact missing (email required)"]) }
  -- --- AI declaration ---
  let ai_generated := (jget mkvs "ai_generated").getD .null
  match orStrip (jget mkvs "mode") with
  | .error e => (r4, some e)
  | .ok mode =>
  let ai_ok := bool_is_true ai_generated ∨
    (mode = "human-directed-ai" ∨ mode = "ai-assisted" ∨ mode = "ai-generated")
  let r5 := { r4 with
    checks := cset r4.checks "ai_declared" (.b ai_ok),
    errors := r4.errors ++ (if ai_ok then [] else
      ["ai declaration missing (expected ai_generated:true or mode in \x7bhuman-directed-ai, ai-assisted, ai-generated\x7d)"]) }
  -- --- Integrity verification ---
  match verify_integrity z mkvs with
  | .ok _ => ({ r5 with checks := cset r5.checks "integrity" (.s "ok") }, none)
  | .error (.validation msg) =>
      ({ r5 with checks := cset r5.checks "integrity" (.s "fail"),
                 errors := r5.errors ++ [msg] }, none)
  | .error e => (r5, some e)   -- only ValidationError is caught locally

/-- `validate_aifx_package` (lines 99–196). `parsed` is the result of
`json.loads` on the container's `manifest.json` entry: `none` models a
parse failure (or an unreadable entry), a non-object document makes the
first attribute access raise, reaching the same outer handler. -/
def validate_aifx_package (z : Container) (parsed : Option Json)
    (pkg : String) (dryRun : Bool) : VResults :=
  let base : VResults := ⟨pkg, true, [], [], [], dryRun⟩
  if ¬ (znamelist z).contains "manifest.json" then
    { base with valid := false,
                errors := ["manifest.json missing"],
                checks := [("manifest", .s "missing")] }
  else
    let afterBody : VResults × Option PyErr :=
      match parsed with
      | some (.obj mkvs) =>
          validateBody z mkvs { base with checks := [("manifest", .s "ok")] }
      | some _ =>
          -- parse succeeded but `.get` on a non-dict raises immediately
          ({ base with checks := [("manifest", .s "ok")] }, some .typeErr)
      | none => (base, some (.value "Invalid JSON"))
    match afterBody with
    | (r, none) => { r with valid := r.errors.isEmpty }
    | (r, some e) =>
        { r with valid := false,
                 checks := cset r.checks "manifest" (.s "failed"),
                 errors := r.errors ++ ["manifest: failed (" ++ errText e ++ ")"] }

end Validator

/-! ## core/validation/verify_aifm.py -/

namespace VerifyAifm

/-- `CheckResult`. -/
structure CheckResult where
  ok : Bool
  path : String
  reason : String := ""
deriving DecidableEq, Repr

/-- `canonical_manifest_bytes(manifest, mode)` (lines 43–53): raises
`ValueError` for any other mode; otherwise serializes the copy with the
`manifest.json` entry popped, with `indent=2` and insertion order —
NOT the sorted compact form the packagers use. -/
def canonical_manifest_bytes (manifest : Json) (mode : Json) :
    Except PyErr (List Nat) :=
  if ¬ jeqStr mode "canonical_excludes_self" then
    .error (.value ("Unsupported manifest_hash_mode: " ++ pyReprJ mode))
  else
    .ok (utf8Bytes (dumpIndent2 0 (removeManifestEntry manifest)))

/-- The body of the `for member, info in hashed_files.items()` loop of
`verify` (lines 82–133); every branch contributes exactly one
`CheckResult`. `manifestBytesLen` is `len(manifest_bytes_in_zip)`. -/
def checkMember (z : Container) (manifest : Json) (mode : Json)
    (manifestBytesLen : Nat) (member : String) (info : Json) :
    Except PyErr CheckResult := do
  match info with
  | .obj ikvs =>
    let expStr ← asStr (jor (jget ikvs "sha256") (.str ""))
    let expected_hash := asciiLower (pyStrip expStr)
    let expected_bytes := (jget ikvs "bytes").getD .null
    if expected_hash = "" ∨ ¬ (expected_hash.length = 64) then
      pure ⟨false, member, "missing/invalid expected sha256"⟩
    else
      match expected_bytes with
      | .num eb =>
        if eb < 0 then
          pure ⟨false, member, "missing/invalid expected bytes"⟩
        else if member = "manifest.json" then
          if ¬ jeqStr mode "canonical_excludes_self" then
            pure ⟨false, member, "unsupported manifest_hash_mode: " ++ pyReprJ mode⟩
          else do
            let canonical ← canonical_manifest_bytes manifest mode
            let actual_hash := sha256Hex canonical
            if ¬ (actual_hash = expected_hash) then
              pure ⟨false, member, "sha256 mismatch (expected " ++ expected_hash ++
                ", got " ++ actual_hash ++ ")"⟩
            else
              -- Do not fail on bytes mismatch for manifest.json
              if ¬ ((manifestBytesLen : Int) = eb) then
                pure ⟨true, member, "OK (bytes differ: expected " ++ toString eb ++
                  ", got " ++ toString manifestBytesLen ++ ")"⟩
              else
                pure ⟨true, member, ""⟩
        else
          -- normal members
          if ¬ (znamelist z).contains member then
            pure ⟨false, member, "missing from container"⟩
          else
            match zread z member with
            | none => throw (PyErr.keyErr member)
            | some data =>
              let actual_hash := sha256Hex data
              let actual_len := data.length
              if ¬ ((actual_len : Int) = eb) then
                pure ⟨false, member, "bytes mismatch (expected " ++ toString eb ++
                  ", got " ++ toString actual_len ++ ")"⟩
              else if ¬ (actual_hash = expected_hash) then
                pure ⟨false, member, "sha256 mismatch (expected " ++ expected_hash ++
                  ", got " ++ actual_hash ++ ")"⟩
              else
                pure ⟨true, member, ""⟩
      | _ => pure ⟨false, member, "missing/invalid expected bytes"⟩
  | _ => pure ⟨false, member, "hash record is not an object"⟩

/-- `verify` (lines 56–136). `manifest` is the parsed `manifest.json`
document (`json.loads` of the entry bytes). Returns
`(all checks ok, per-entry results)`. -/
def verify (z : Container) (manifest : Json) :
    Except PyErr (Bool × List CheckResult) := do
  if ¬ (znamelist z).contains "manifest.json" then
    throw (.value "Missing manifest.json in AIFM")
  let manifest_bytes_in_zip := (zread z "manifest.json").getD []
  let integrityO ← pyGet manifest "integrity"
  let integrity := jor integrityO (.obj [])
  let algoJ ← pyGet integrity "algorithm"
  let algoS ← asStr (jor algoJ (.str ""))
  let algo := asciiLower algoS
  let hfJ ← pyGet integrity "hashed_files"
  let hashed_files := jor hfJ (.obj [])
  let modeJ ← pyGet integrity "manifest_hash_mode"
  let mode := jor modeJ (.str "")

  if ¬ (algo = "sha256") then
    throw (.value ("Unsupported integrity.algorithm: " ++ pyRepr algo ++
      " (expected \x27sha256\x27)"))
  let hkvs ← match hashed_files with
    | .obj (kv :: rest) => pure (kv :: rest)
    | _ => throw (PyErr.value "integrity.hashed_files missing or empty")

  -- each loop iteration appends exactly one CheckResult
  let results ← hkvs.mapM (fun kv =>
    checkMember z manifest mode manifest_bytes_in_zip.length kv.1 kv.2)

  let ok := results.all (·.ok)
  pure (ok, results)

end VerifyAifm

/-! ## core/validation/aifv_validator.py -/

namespace AifvValidator

/-- Python `s.split(sep)` on a character list (keeps empty pieces). -/
def pySplit (sep : Char) (l : List Char) : List String :=
  l.foldr (fun c acc =>
    match acc with
    | s :: rest => if c = sep then "" :: s :: rest else (⟨c :: s.data⟩ : String) :: rest
    | [] => [⟨[c]⟩])
  [""]

/-- `"/".join(parts)`. -/
def joinSlash : List String → String
  | [] => ""
  | [s] => s
  | s :: rest => s ++ "/" ++ joinSlash rest

def strStartsWith (s pre : String) : Bool :=
  pre.data.isPrefixOf s.data

/-- `posixpath.normpath` (CPython): collapse empty and `.` components,
resolve `..` against preceding components, keep leading slashes (two are
special), empty result becomes `.`. -/
def normpath (path : String) : String :=
  if path = "" then "." else
  let d := path.data
  let initialSlashes : Nat :=
    if d.take 1 = ['/'] then
      if d.take 2 = ['/', '/'] ∧ ¬ (d.take 3 = ['/', '/', '/']) then 2 else 1
    else 0
  let comps := pySplit '/' d
  let newComps := comps.foldl (fun acc comp =>
    if comp = "" ∨ comp = "." then acc
    else if ¬ (comp = "..") ∨ (initialSlashes = 0 ∧ acc = []) ∨ acc.getLast? = some ".." then
      acc ++ [comp]
    else if ¬ acc.isEmpty then acc.dropLast
    else acc) []
  let p := (⟨List.replicate initialSlashes '/'⟩ : String) ++ joinSlash newComps
  if p = "" then "." else p

/-- `_is_unsafe_path` (lines 12–34): zip-slip / unsafe path detection. -/
def is_unsafe_path (name : String) : Bool :=
  if strStartsWith name "/" ∨ strStartsWith name "\\" then true
  else
    let name_norm : String := ⟨name.data.map (fun c => if c = '\\' then '/' else c)⟩
    -- re.match(r"^[A-Za-z]:/", name_norm): drive-like prefix
    let drive : Bool := match name_norm.data with
      | c :: d1 :: d2 :: _ =>
          ((65 ≤ c.toNat ∧ c.toNat ≤ 90) ∨ (97 ≤ c.toNat ∧ c.toNat ≤ 122)) ∧
          d1 = ':' ∧ d2 = '/'
      | _ => false
    if drive then true
    else
      let norm := normpath name_norm
      if strStartsWith norm "../" ∨ norm = ".." then true
      else
        let parts := (pySplit '/' name_norm.data).filter (fun p => ¬ (p = ""))
        parts.any (fun p => p = "..")

/-- `_zipinfo_is_symlink` (lines 37–42): the stored Unix file-mode bits
indicate a symbolic link. -/
def zipinfo_is_symlink (zi : ZipEntry) : Bool :=
  ((zi.externalAttr >>> 16) &&& 0o170000) = 0o120000

/-- `_nonempty_str`. -/
def nonempty_str (v : Json) : Bool :=
  match v with
  | .str s => ¬ (pyStrip s = "")
  | _ => false

/-- `^assets/video\.[^/]+$`. -/
def primary_video_match (n : String) : Bool :=
  let pre := "assets/video.".data
  pre.isPrefixOf n.data &&
    (let rest := n.data.drop pre.length
     !rest.isEmpty && rest.all (fun c => ¬ (c = '/')))

/-- `validate_aifv` (lines 49–151): AIFV structure + security + strict
governance fields. `mkvs` is the parsed manifest object. Returns
`(checks, errors, warnings)`. -/
def validate_aifv (z : Container) (mkvs : List (String × Json)) :
    List (String × CheckVal) × List String × List String :=
  let names := (znamelist z).eraseDups   -- set(z.namelist())
  -- --- Security: safe paths + no symlinks ---
  let safe_paths_ok := ¬ z.any (fun zi => is_unsafe_path zi.filename)
  let no_symlinks_ok := ¬ z.any (fun zi => zipinfo_is_symlink zi)
  let checks1 := [("security.safe_paths", CheckVal.b safe_paths_ok)]
  let errors1 := if safe_paths_ok then [] else
    ["security: unsafe path detected (possible zip-slip)"]
  let checks2 := checks1 ++ [("security.no_symlinks", CheckVal.b no_symlinks_ok)]
  let errors2 := errors1 ++ (if no_symlinks_ok then [] else
    ["security: symlinks are not allowed"])
  -- --- Required files ---
  let thumb_present := names.contains "assets/thumb.jpg"
  let checks3 := checks2 ++ [("files.thumbnail_present", CheckVal.b thumb_present)]
  let errors3 := errors2 ++ (if thumb_present then [] else
    ["assets/thumb.jpg missing (required)"])
  let primary_videos := names.filter primary_video_match
  let primary_ok := primary_videos.length = 1
  let checks4 := checks3 ++ [("files.primary_video_single", CheckVal.b primary_ok)]
  let errors4 := errors3 ++
    (if primary_ok then []
     else if primary_videos.length = 0 then
       ["primary video missing (expected exactly one file matching assets/video.*)"]
     else
       ["multiple primary videos found (expected exactly one file matching assets/video.*)"])
  -- --- Manifest governance (AIFV strict) ---
  let work := match jget mkvs "work" with
    | some (.obj wkvs) => wkvs
    | _ => []
  let creator := match jget mkvs "creator" with
    | some (.obj ckvs) => ckvs
    | _ => []
  let title_ok := nonempty_str ((jget work "title").getD .null)
  let checks5 := checks4 ++ [("manifest.work.title", CheckVal.b title_ok)]
  let errors5 := errors4 ++ (if title_ok then [] else ["work.title missing (required)"])
  let cname_ok := nonempty_str ((jget creator "name").getD .null)
  let checks6 := checks5 ++ [("manifest.creator.name", CheckVal.b cname_ok)]
  let errors6 := errors5 ++ (if cname_ok then [] else ["creator.name missing (required)"])
  let ccontact_ok := nonempty_str ((jget creator "contact").getD .null)
  let checks7 := checks6 ++ [("manifest.creator.contact", CheckVal.b ccontact_ok)]
  let errors7 := errors6 ++ (if ccontact_ok then [] else ["creator.contact missing (email required)"])
  let mode_ok := nonempty_str ((jget mkvs "mode").getD .null)
  let checks8 := checks7 ++ [("manifest.mode", CheckVal.b mode_ok)]
  let errors8 := errors7 ++ (if mode_ok then [] else ["mode missing (required)"])
  -- v0 lock: strict ai_generated must be true (no mode-only fallback)
  let ai_ok := bool_is_true ((jget mkvs "ai_generated").getD .null)
  let checks9 := checks8 ++ [("manifest.ai_generated", CheckVal.b ai_ok)]
  let errors9 := errors8 ++ (if ai_ok then [] else ["ai_generated must be true (required)"])
  let tier_ok := jeqStr ((jget mkvs "verification_tier").getD .null) "SDA"
  let checks10 := checks9 ++ [("manifest.verification_tier", CheckVal.b tier_ok)]
  let errors10 := errors9 ++ (if tier_ok then [] else ["verification_tier must be \x27SDA\x27 (required)"])
  let decl_ok := nonempty_str ((jget mkvs "declaration").getD .null)
  let checks11 := checks10 ++ [("manifest.declaration", CheckVal.b decl_ok)]
  let errors11 := errors10 ++ (if decl_ok then [] else ["declaration missing (required)"])
  -- --- Informational: video facts (warning only) ---
  let video_obj := match jget mkvs "video" with
    | some (.obj vkvs) => some vkvs
    | _ => none
  let facts_ok := match video_obj with
    | some vkvs =>
        ["duration", "width", "height", "fps", "codec", "container"].any
          (fun k => vkvs.any (fun p => p.1 = k))
    | none => false
  let checks12 := checks11 ++ [("info.video_facts_present", CheckVal.b facts_ok)]
  let warnings := if facts_ok then [] else
    ["info: video facts missing (duration/resolution/fps/codecs) — not required in v0"]
  (checks12, errors11, warnings)

end AifvValidator

/-! ## Observers (read-only accessors used to state properties) -/

/-- The digest stored under the manifest's own entry name in the
integrity block: `manifest["integrity"]["hashed_files"]["manifest.json"]["sha256"]`. -/
def storedManifestSha (m : Json) : Option Json :=
  match m with
  | .obj kvs =>
      match jget kvs "integrity" with
      | some (.obj ikvs) =>
          match jget ikvs "hashed_files" with
          | some (.obj hkvs) =>
              match jget hkvs "manifest.json" with
              | some (.obj e) => jget e "sha256"
              | _ => none
          | _ => none
      | _ => none
  | _ => none

/-- The declared hash table a verifier iterates:
`(manifest.get("integrity") or \x7b\x7d).get("hashed_files") or \x7b\x7d`,
as the ordered item list. -/
def declaredEntries (m : Json) : List (String × Json) :=
  match m with
  | .obj mkvs =>
      match jor (jget mkvs "integrity") (.obj []) with
      | .obj ikvs =>
          match jor (jget ikvs "hashed_files") (.obj []) with
          | .obj hkvs => hkvs
          | _ => []
      | _ => []
  | _ => []

/-- The `manifest_hash_mode` value a verifier reads:
`integrity.get("manifest_hash_mode") or ""`. -/
def declaredMode (m : Json) : Json :=
  match m with
  | .obj mkvs =>
      match jor (jget mkvs "integrity") (.obj []) with
      | .obj ikvs => jor (jget ikvs "manifest_hash_mode") (.str "")
      | _ => .str ""
  | _ => .str ""

/-! ## Concrete instances used by counterexamples and witnesses -/

/-- A one-file staging set. -/
def c5wFiles : List (String × List Nat) := [("assets/a.bin", utf8Bytes "x")]

/-- A minimal manifest skeleton without an integrity block. -/
def c5wKvs : List (String × Json) := [("work", Json.obj [("title", Json.str "T")])]

/-- A two-key document whose insertion order is not lexicographic. -/
def c2Manifest : Json := .obj [("b", .num 1), ("a", .num 2)]

/-- A 3-byte audio stub. -/
def c4Audio : List Nat := utf8Bytes "abc"

/-- `build_aifm` run at one wall-clock time... -/
def c4Zip1 : Container :=
  AifmPackager.build_aifm_zip ".mp3" c4Audio none "Test" "A" "a@b.com" "d"
    "human-directed-ai" (2024, 1, 1, 0, 0, 0)

/-- ...and the byte-identical build two seconds later. -/
def c4Zip2 : Container :=
  AifmPackager.build_aifm_zip ".mp3" c4Audio none "Test" "A" "a@b.com" "d"
    "human-directed-ai" (2024, 1, 1, 0, 0, 2)

/-- A two-file staging set, and the same set in another staging order. -/
def c4wFiles : List (String × List Nat) := [("b.txt", utf8Bytes "B"), ("a.txt", utf8Bytes "A")]

def c4wFiles2 : List (String × List Nat) := [("a.txt", utf8Bytes "A"), ("b.txt", utf8Bytes "B")]

def c4wEntry : ZipEntry := ⟨"a.txt", utf8Bytes "A", (1980, 1, 1, 0, 0, 0), 0o600 <<< 16⟩

/-- A container whose `manifest.json` entry holds arbitrary bytes. -/
def c8Zip : Container := [⟨"manifest.json", utf8Bytes "x", (2024, 1, 1, 0, 0, 0), 0⟩]

/-- A parsed manifest declaring the unsupported hash mode `"raw"` whose
declared manifest digest matches the raw container bytes. -/
def c8Kvs : List (String × Json) :=
  [("integrity", .obj
    [("algorithm", .str "sha256"),
     ("manifest_hash_mode", .str "raw"),
     ("hashed_files", .obj
       [("manifest.json", .obj [("sha256", .str (sha256Hex (utf8Bytes "x")))])])])]

/-- A well-formed hash record for a manifest entry. -/
def c8wInfo : Json := .obj [("sha256", .str (sha256Hex (utf8Bytes "x"))), ("bytes", .num 1)]

/-- The check result verify_aifm produces for a manifest entry under the
unsupported mode `"raw"`. -/
def c8wRes : VerifyAifm.CheckResult :=
  ⟨false, "manifest.json", "unsupported manifest_hash_mode: \x27raw\x27"⟩


/-- A declared asset entry for the C9 package. -/
def c9AEntry : String × Json :=
  ("assets/a.txt", .obj [("sha256", .str (sha256Hex (utf8Bytes "hi")))])

/-- A manifest whose mode is in the enumeration but whose AI-generation
flag is strictly False, with a given hash table. -/
def c9Base (hf : List (String × Json)) : List (String × Json) :=
  [("work", .obj [("title", .str "T")]),
   ("creator", .obj [("name", .str "A"), ("contact", .str "a@b.com")]),
   ("mode", .str "ai-assisted"),
   ("ai_generated", .bool false),
   ("integrity", .obj
     [("algorithm", .str "sha256"),
      ("manifest_hash_mode", .str "canonical_excludes_self"),
      ("hashed_files", .obj hf)])]

/-- The self-excluding canonical digest of the C9 manifest. -/
def c9Hash : String :=
  sha256Hex (Validator.canonical_manifest_bytes (.obj (c9Base [c9AEntry])))

/-- The finalized C9 manifest. -/
def c9Kvs : List (String × Json) :=
  c9Base [c9AEntry, ("manifest.json", .obj [("sha256", .str c9Hash)])]

/-- The C9 container: consistent manifest plus its declared asset. -/
def c9Zip : Container :=
  [⟨"manifest.json", utf8Bytes (dumpIndent2 0 (.obj c9Kvs)), (2024, 1, 1, 0, 0, 0), 0⟩,
   ⟨"assets/a.txt", utf8Bytes "hi", (2024, 1, 1, 0, 0, 0), 0⟩]

/-- The report state `validate_aifx_package` hands to its body. -/
def c9Init : VResults :=
  { package := "p.aifx", valid := true, errors := [], warnings := [],
    checks := [("manifest", CheckVal.s "ok")], dryRun := true }

/-- The report the body produces on the C9 package. -/
def c9R : VResults := (Validator.validateBody c9Zip c9Kvs c9Init).1

/-- A manifest whose creator identity is only the top-level author. -/
def c10Kvs : List (String × Json) :=
  [("author", .str "Bob"), ("work", .obj [("title", .str "T")])]

/-- The report the body produces on the C10 manifest. -/
def c10R : VResults := (Validator.validateBody [] c10Kvs c9Init).1

def c3EvilEntry : String × Json :=
  ("../evil", .obj [("sha256", .str (sha256Hex (utf8Bytes "evil")))])

def c3Base (hf : List (String × Json)) : List (String × Json) :=
  [("work", .obj [("title", .str "T")]),
   ("creator", .obj [("name", .str "A"), ("contact", .str "a@b.com")]),
   ("mode", .str "human-directed-ai"),
   ("ai_generated", .bool true),
   ("integrity", .obj
     [("algorithm", .str "sha256"),
      ("manifest_hash_mode", .str "canonical_excludes_self"),
      ("hashed_files", .obj hf)])]

def c3Hash : String :=
  sha256Hex (Validator.canonical_manifest_bytes (.obj (c3Base [c3EvilEntry])))

def c3Kvs : List (String × Json) :=
  c3Base [c3EvilEntry, ("manifest.json", .obj [("sha256", .str c3Hash)])]

def c3Zip : Container :=
  [⟨"manifest.json", utf8Bytes (dumpIndent2 0 (.obj c3Kvs)), (2024, 1, 1, 0, 0, 0), 0⟩,
   ⟨"../evil", utf8Bytes "evil", (2024, 1, 1, 0, 0, 0), 0⟩]

/-- A 64-hex-character digest placeholder (valid format, matches nothing). -/
def c6Sha : String :=
  "0000000000000000000000000000000000000000000000000000000000000000"

def c6Meta : Json := .obj [("sha256", .str c6Sha), ("bytes", .num 4)]

/-- A manifest declaring two entries (`a.txt`, `b.txt`) that the container
below does not hold, plus its own entry. -/
def c6Kvs : List (String × Json) :=
  [("work", .obj [("title", .str "T")]),
   ("creator", .obj [("name", .str "A"), ("contact", .str "a@b.com")]),
   ("mode", .str "ai-assisted"),
   ("ai_generated", .bool true),
   ("integrity", .obj
     [("algorithm", .str "sha256"),
      ("manifest_hash_mode", .str "canonical_excludes_self"),
      ("hashed_files", .obj
        [("a.txt", c6Meta), ("b.txt", c6Meta), ("manifest.json", c6Meta)])])]

def c6Zip : Container :=
  [⟨"manifest.json", utf8Bytes (dumpIndent2 0 (.obj c6Kvs)), (2024, 1, 1, 0, 0, 0), 0⟩]

/-- The report `verify` produces for that package. -/
def c6P : Bool × List VerifyAifm.CheckResult :=
  ((VerifyAifm.verify c6Zip (.obj c6Kvs)).toOption).getD (true, [])

/-- A minimal manifest document for exercising `checkMember` directly. -/
def c7M : List (String × Json) := [("a", .str "x")]

def c7S : String := sha256Hex (utf8Bytes (dumpIndent2 0 (removeManifestEntry (.obj c7M))))

def c7T : String := sha256Hex (utf8Bytes "hi")

def c7Ikvs : List (String × Json) := [("sha256", .str c7S), ("bytes", .num 7)]

def c7Jkvs : List (String × Json) := [("sha256", .str c7T), ("bytes", .num 9)]

def c7Z : Container := [⟨"a.txt", utf8Bytes "hi", (2024, 1, 1, 0, 0, 0), 0⟩]

/-- A concretely built AIFM package (audio `.mp3` + cover) and its manifest. -/
def c1Zip : Container :=
  AifmPackager.build_aifm_zip ".mp3" (utf8Bytes "AU") (some (utf8Bytes "JPG"))
    "My Title" "Ann" "ann@example.com" "D" "human-directed-ai" (2024, 1, 1, 0, 0, 0)

def c1M : Json :=
  AifmPackager.build_aifm_manifest ".mp3" (utf8Bytes "AU") (some (utf8Bytes "JPG"))
    "My Title" "Ann" "ann@example.com" "D" "human-directed-ai"

/-! # Helper lemmas -/

theorem char_eq_of_toNat_eq {a b : Char} (h : a.toNat = b.toNat) : a = b :=
  Char.eq_of_val_eq (UInt32.ext h)

theorem string_ext {a b : String} (h : a.data = b.data) : a = b := by
  cases a; cases b; exact congrArg String.mk h

theorem charListLe_total : ∀ a b : List Char, charListLe a b = true ∨ charListLe b a = true := by
  intro a
  induction a with
  | nil => intro b; left; rfl
  | cons x xs ih =>
    intro b
    cases b with
    | nil => right; rfl
    | cons y ys =>
      simp only [charListLe]
      by_cases h1 : x.toNat < y.toNat
      · left; simp [h1]
      · by_cases h2 : y.toNat < x.toNat
        · right; simp [h2]
        · rcases ih ys with h3 | h3
          · left; simp [h1, h2, h3]
          · right; simp [h1, h2, h3]

theorem charListLe_trans : ∀ a b c : List Char,
    charListLe a b = true → charListLe b c = true → charListLe a c = true := by
  intro a
  induction a with
  | nil => intro b c _ _; rfl
  | cons x xs ih =>
    intro b c hab hbc
    cases b with
    | nil => simp [charListLe] at hab
    | cons y ys =>
      cases c with
      | nil => simp [charListLe] at hbc
      | cons z zs =>
        simp only [charListLe] at hab hbc ⊢
        by_cases h1 : x.toNat < y.toNat
        · by_cases h2 : y.toNat < z.toNat
          · simp [show x.toNat < z.toNat by omega]
          · by_cases h2p : z.toNat < y.toNat
            · simp [h2, h2p] at hbc
            · simp [show x.toNat < z.toNat by omega]
        · by_cases h1p : y.toNat < x.toNat
          · simp [h1, h1p] at hab
          · by_cases h2 : y.toNat < z.toNat
            · simp [show x.toNat < z.toNat by omega]
            · by_cases h2p : z.toNat < y.toNat
              · simp [h2, h2p] at hbc
              · simp [h1, h1p] at hab
                simp [h2, h2p] at hbc
                simp [show ¬ x.toNat < z.toNat by omega, show ¬ z.toNat < x.toNat by omega]
                exact ih ys zs hab hbc

theorem charListLe_antisymm : ∀ a b : List Char,
    charListLe a b = true → charListLe b a = true → a = b := by
  intro a
  induction a with
  | nil =>
    intro b _ hba
    cases b with
    | nil => rfl
    | cons y ys => simp [charListLe] at hba
  | cons x xs ih =>
    intro b hab hba
    cases b with
    | nil => simp [charListLe] at hab
    | cons y ys =>
      simp only [charListLe] at hab hba
      by_cases h1 : x.toNat < y.toNat
      · simp [h1, show ¬ y.toNat < x.toNat by omega] at hba
      · by_cases h1p : y.toNat < x.toNat
        · simp [h1, h1p] at hab
        · simp [h1, h1p] at hab hba
          have heq : x = y := char_eq_of_toNat_eq (by omega)
          rw [heq, ih ys hab hba]

theorem strLe_total (a b : String) : strLe a b = true ∨ strLe b a = true :=
  charListLe_total a.data b.data

theorem strLe_trans {a b c : String} (h1 : strLe a b = true) (h2 : strLe b c = true) :
    strLe a c = true :=
  charListLe_trans a.data b.data c.data h1 h2

theorem strLe_antisymm {a b : String} (h1 : strLe a b = true) (h2 : strLe b a = true) :
    a = b :=
  string_ext (charListLe_antisymm a.data b.data h1 h2)

/-- Sorting pairs by `strLe` on their keys is invariant under permutation
when the keys are distinct: dict construction order does not leak into a
key-sorted output. -/
theorem sortPairs_eq_of_perm {β : Type} (l lp : List (String × β))
    (hp : l.Perm lp) (hn : (l.map Prod.fst).Nodup) :
    List.insertionSort (fun a b => strLe a.1 b.1 = true) l =
    List.insertionSort (fun a b => strLe a.1 b.1 = true) lp := by
  set r : (String × β) → (String × β) → Prop := fun a b => strLe a.1 b.1 = true with hr
  haveI : IsTotal (String × β) r := ⟨fun a b => strLe_total a.1 b.1⟩
  haveI : IsTrans (String × β) r := ⟨fun a b c => strLe_trans⟩
  set q : (String × β) → (String × β) → Prop := fun a b => r a b ∧ ¬ (a.1 = b.1) with hq
  haveI : IsAntisymm (String × β) q :=
    ⟨fun a b hab hba => absurd (strLe_antisymm hab.1 hba.1) hab.2⟩
  have s1 : List.Sorted r (List.insertionSort _ l) := List.sorted_insertionSort r l
  have s2 : List.Sorted r (List.insertionSort _ lp) := List.sorted_insertionSort r lp
  have hperm : (List.insertionSort (fun a b => strLe a.1 b.1 = true) l).Perm
      (List.insertionSort (fun a b => strLe a.1 b.1 = true) lp) :=
    ((List.perm_insertionSort _ l).trans hp).trans (List.perm_insertionSort _ lp).symm
  have hn1 : ((List.insertionSort (fun a b => strLe a.1 b.1 = true) l).map Prod.fst).Nodup :=
    (((List.perm_insertionSort _ l).map Prod.fst).nodup_iff).mpr hn
  have hn2 : ((List.insertionSort (fun a b => strLe a.1 b.1 = true) lp).map Prod.fst).Nodup :=
    ((hperm.map Prod.fst).nodup_iff).mp hn1
  have toQ : ∀ (xs : List (String × β)), List.Sorted r xs → ((xs.map Prod.fst).Nodup) →
      List.Sorted q xs := by
    intro xs hs hnd
    exact hs.and ((List.pairwise_map).mp hnd)
  exact List.eq_of_perm_of_sorted hperm (toQ _ s1 hn1) (toQ _ s2 hn2)

theorem dropRightWhile_eq (p : Char → Bool) (l : List Char) :
    dropRightWhile p l = List.rdropWhile p l := rfl

theorem pyStripL_idem (p : Char → Bool) (l : List Char) :
    dropRightWhile p ((dropRightWhile p (l.dropWhile p)).dropWhile p) =
    dropRightWhile p (l.dropWhile p) := by
  rw [dropRightWhile_eq, dropRightWhile_eq]
  set A := l.dropWhile p with hA
  have hAd : A.dropWhile p = A := by
    rw [hA]; exact List.dropWhile_idempotent p l
  set B := List.rdropWhile p A with hB
  have hBd : B.dropWhile p = B := by
    rcases hpre : B with _ | ⟨b, bs⟩
    · simp
    · have hpfx : B <+: A := by rw [hB]; exact List.rdropWhile_prefix p A
      obtain ⟨t, ht⟩ := hpfx
      rw [hpre] at ht
      have hb : ¬ p b = true := by
        intro hpb
        have hthis : A.dropWhile p = (bs ++ t).dropWhile p := by
          rw [← ht]; simp [List.dropWhile_cons, hpb]
        rw [hAd] at hthis
        have hlen1 : A.length = ((bs ++ t).dropWhile p).length := congrArg List.length hthis
        have hlen2 : A.length = bs.length + t.length + 1 := by
          rw [← ht]; simp_arith
        have hle : ((bs ++ t).dropWhile p).length ≤ bs.length + t.length := by
          have := (List.dropWhile_suffix p (l := bs ++ t)).sublist.length_le
          simpa using this
        omega
      simp [List.dropWhile_cons, hb]
  rw [hBd, hB]
  exact List.rdropWhile_idempotent p A

theorem pyStrip_idem (s : String) : pyStrip (pyStrip s) = pyStrip s := by
  apply string_ext
  show pyStripL (pyStripL s.data) = pyStripL s.data
  unfold pyStripL
  exact pyStripL_idem isPySpace s.data

theorem shaRound_length (st : List Nat) (kw : Nat × Nat) :
    (shaRound st kw).length = st.length := by
  unfold shaRound
  split <;> rfl

theorem foldl_shaRound_length (l : List (Nat × Nat)) :
    ∀ st : List Nat, (l.foldl shaRound st).length = st.length := by
  induction l with
  | nil => intro st; rfl
  | cons x xs ih =>
    intro st
    simp only [List.foldl_cons]
    rw [ih, shaRound_length]

theorem shaCompress_length (hs block : List Nat) :
    (shaCompress hs block).length = hs.length := by
  unfold shaCompress
  rw [List.length_zipWith, foldl_shaRound_length]
  omega

theorem foldl_shaCompress_length (blocks : List (List Nat)) :
    ∀ hs : List Nat, (blocks.foldl shaCompress hs).length = hs.length := by
  induction blocks with
  | nil => intro hs; rfl
  | cons b bs ih =>
    intro hs
    simp only [List.foldl_cons]
    rw [ih, shaCompress_length]

theorem flatten_map_four (hs : List Nat) :
    ((hs.map (fun w => [w >>> 24 % 256, w >>> 16 % 256, w >>> 8 % 256, w % 256])).flatten).length
      = 4 * hs.length := by
  induction hs with
  | nil => rfl
  | cons w ws ih =>
    simp only [List.map_cons, List.flatten_cons, List.length_append, ih, List.length_cons]
    simp_arith

theorem sha256Bytes_length (msg : List Nat) : (sha256Bytes msg).length = 32 := by
  unfold sha256Bytes
  rw [flatten_map_four, foldl_shaCompress_length]
  rfl

theorem byteHex_length (b : Nat) : (byteHex b).length = 2 := rfl

theorem join_map_byteHex_length : ∀ (l : List Nat) (acc : String),
    ((l.map byteHex).foldl (fun a b => a ++ b) acc).length = acc.length + 2 * l.length := by
  intro l
  induction l with
  | nil => intro acc; simp
  | cons x xs ih =>
    intro acc
    simp only [List.map_cons, List.foldl_cons]
    rw [ih, String.length_append, byteHex_length]
    simp_arith

theorem sha256Hex_length (msg : List Nat) : (sha256Hex msg).length = 64 := by
  unfold sha256Hex String.join
  rw [join_map_byteHex_length, sha256Bytes_length]
  rfl

theorem sha256Hex_ne_empty (msg : List Nat) : ¬ (sha256Hex msg = "") := by
  intro h
  have := congrArg String.length h
  rw [sha256Hex_length] at this
  simp [String.length] at this

theorem data_append (a b : String) : (a ++ b).data = a.data ++ b.data := by
  cases a; cases b; rfl

theorem ne_of_getElem_ne {l1 l2 : List Char} (i : Nat) {c q : Char}
    (h1 : l1[i]? = some c) (h2 : l2[i]? = some q) (hne : ¬ (c = q)) :
    ¬ (l1 = l2) := by
  intro h
  rw [h] at h1
  rw [h1] at h2
  exact hne (Option.some.inj h2)

theorem str_ne_of_getElem_ne {s t : String} (i : Nat) {c q : Char}
    (h1 : s.data[i]? = some c) (h2 : t.data[i]? = some q) (hne : ¬ (c = q)) :
    ¬ (s = t) := by
  intro h
  exact ne_of_getElem_ne i h1 h2 hne (congrArg String.data h)

theorem audioRel_ne_manifest (sfx : String) :
    ¬ (AifmPackager.audioRel sfx = "manifest.json") := by
  apply str_ne_of_getElem_ne 0 (c := 'a') (q := 'm')
  · show (AifmPackager.audioRel sfx).data[0]? = some 'a'
    unfold AifmPackager.audioRel
    rw [data_append]
    rfl
  · rfl
  · decide

theorem audioRel_ne_cover (sfx : String) :
    ¬ (AifmPackager.audioRel sfx = AifmPackager.coverRel) := by
  apply str_ne_of_getElem_ne 7 (c := 'a') (q := 'c')
  · show (AifmPackager.audioRel sfx).data[7]? = some 'a'
    unfold AifmPackager.audioRel
    rw [data_append]
    rfl
  · rfl
  · decide

theorem coverRel_ne_manifest : ¬ (AifmPackager.coverRel = "manifest.json") := by decide

theorem imageRel_ne_manifest (ext : String) :
    ¬ ("assets/image" ++ ext = "manifest.json") := by
  apply str_ne_of_getElem_ne 0 (c := 'a') (q := 'm')
  · rw [data_append]; rfl
  · rfl
  · decide

theorem jget_jset_self (l : List (String × Json)) (k : String) (v : Json) :
    jget (jset l k v) k = some v := by
  unfold jget jset
  by_cases h : l.any (fun p => p.1 = k)
  · simp only [h, if_true]
    induction l with
    | nil => simp at h
    | cons p ps ih =>
      by_cases hp : p.1 = k
      · simp [List.find?, hp]
      · simp only [List.any_cons] at h
        simp only [List.map_cons, if_neg hp, List.find?]
        simp only [hp, decide_eq_false, Bool.false_eq_true]
        apply ih
        rcases (Bool.or_eq_true _ _).mp h with h1 | h1
        · exact absurd (of_decide_eq_true h1) hp
        · exact h1
  · simp only [h, Bool.false_eq_true, if_false]
    rw [List.find?_append]
    have hnone : l.find? (fun p => decide (p.1 = k)) = none := by
      rw [List.find?_eq_none]
      intro p hp hdec
      have : l.any (fun p => p.1 = k) = true :=
        List.any_eq_true.mpr ⟨p, hp, hdec⟩
      simp [this] at h
    simp [hnone, List.find?]

theorem jset_jset_self (l : List (String × Json)) (k : String) (v w : Json) :
    jset (jset l k v) k w = jset l k w := by
  unfold jset
  by_cases h : l.any (fun p => p.1 = k)
  · have h2 : (l.map (fun p => if p.1 = k then (k, v) else p)).any (fun p => p.1 = k) = true := by
      rw [List.any_map]
      rcases List.any_eq_true.mp h with ⟨p, hp, hdec⟩
      exact List.any_eq_true.mpr ⟨p, hp, by simp [of_decide_eq_true hdec]⟩
    simp only [h, if_true, h2]
    rw [List.map_map]
    apply List.map_congr_left
    intro p _
    by_cases hp : p.1 = k <;> simp [hp]
  · have h2 : (l ++ [(k, v)]).any (fun p => p.1 = k) = true := by
      simp
    simp only [h, Bool.false_eq_true, if_false, h2, if_true]
    rw [List.map_append]
    have hmap : l.map (fun p => if p.1 = k then (k, w) else p) = l := by
      rw [show l = l.map id from (List.map_id l).symm]
      rw [List.map_map]
      apply List.map_congr_left
      intro p hp
      simp only [Function.comp, id] at *
      have hne : ¬ (p.1 = k) := by
        intro he
        exact absurd (List.any_eq_true.mpr ⟨p, hp, by simp [he]⟩) h
      simp [hne]
    simp [hmap]

theorem sortKeysFields_eq_map (l : List (String × Json)) :
    sortKeysFields l = l.map (fun p => (p.1, p.2.sortKeys)) := by
  induction l with
  | nil => rfl
  | cons p ps ih => cases p; simp [sortKeysFields, ih]

/-! ## Structural lemmas about the built manifests -/

theorem aifm_remove (sfx : String) (ab : List Nat) (cb : Option (List Nat))
    (t cn cc d md : String) (e : Json) :
    removeManifestEntry (AifmPackager.aifmManifest t cn cc d md sfx cb.isSome
        (AifmPackager.aifmHashedFiles0 sfx ab cb ++ [("manifest.json", e)])) =
    AifmPackager.aifmManifest t cn cc d md sfx cb.isSome
        (AifmPackager.aifmHashedFiles0 sfx ab cb) := by
  cases cb <;>
    simp [removeManifestEntry, AifmPackager.aifmManifest, AifmPackager.aifmHashedFiles0,
      jget, jset, List.find?, audioRel_ne_manifest, audioRel_ne_cover, coverRel_ne_manifest]

theorem aifm_remove_noop (sfx : String) (ab : List Nat) (cb : Option (List Nat))
    (t cn cc d md : String) :
    removeManifestEntry (AifmPackager.aifmManifest t cn cc d md sfx cb.isSome
        (AifmPackager.aifmHashedFiles0 sfx ab cb)) =
    AifmPackager.aifmManifest t cn cc d md sfx cb.isSome
        (AifmPackager.aifmHashedFiles0 sfx ab cb) := by
  cases cb <;>
    simp [removeManifestEntry, AifmPackager.aifmManifest, AifmPackager.aifmHashedFiles0,
      jget, jset, List.find?, audioRel_ne_manifest, audioRel_ne_cover, coverRel_ne_manifest]

theorem aifm_stored (sfx : String) (ab : List Nat) (cb : Option (List Nat))
    (t cn cc d md : String) (e : List (String × Json)) :
    storedManifestSha (AifmPackager.aifmManifest t cn cc d md sfx cb.isSome
        (AifmPackager.aifmHashedFiles0 sfx ab cb ++ [("manifest.json", .obj e)])) =
    jget e "sha256" := by
  cases cb <;>
    simp [storedManifestSha, AifmPackager.aifmManifest, AifmPackager.aifmHashedFiles0,
      jget, List.find?, audioRel_ne_manifest, audioRel_ne_cover, coverRel_ne_manifest]

theorem aifi_remove (ext ih t cn cc md ver pt : String) (sup : List String) (e : Json) :
    removeManifestEntry (AifiPackager.aifiManifest ext ih t cn cc md ver pt sup
        (AifiPackager.aifiHashed0 ext ih ++ [("manifest.json", e)])) =
    AifiPackager.aifiManifest ext ih t cn cc md ver pt sup (AifiPackager.aifiHashed0 ext ih) := by
  simp [removeManifestEntry, AifiPackager.aifiManifest, AifiPackager.aifiHashed0,
    jget, jset, List.find?, imageRel_ne_manifest]

theorem aifi_stored (ext ih t cn cc md ver pt : String) (sup : List String)
    (e : List (String × Json)) :
    storedManifestSha (AifiPackager.aifiManifest ext ih t cn cc md ver pt sup
        (AifiPackager.aifiHashed0 ext ih ++ [("manifest.json", .obj e)])) =
    jget e "sha256" := by
  simp [storedManifestSha, AifiPackager.aifiManifest, AifiPackager.aifiHashed0,
    jget, List.find?, imageRel_ne_manifest]

theorem hashedTable_keys (files : List (String × List Nat)) :
    ∀ p ∈ ConverterBase.hashedTable files, ¬ (p.1 = "manifest.json") := by
  intro p hp
  rcases List.mem_filterMap.mp hp with ⟨a, _, hfa⟩
  by_cases h : a.1 = "manifest.json"
  · simp [h] at hfa
  · simp only [h, if_false, Bool.false_eq_true, ConverterBase.sha256_file] at hfa
    intro hc
    rw [← Option.some.inj hfa] at hc
    exact h hc

theorem removeManifestEntry_jset (kvs ikvs : List (String × Json))
    (hkvs : List (String × Json)) :
    removeManifestEntry (.obj (jset kvs "integrity"
        (.obj (jset ikvs "hashed_files" (.obj hkvs))))) =
    .obj (jset kvs "integrity" (.obj (jset ikvs "hashed_files"
        (.obj (hkvs.filter (fun p => ¬ (p.1 = "manifest.json"))))))) := by
  unfold removeManifestEntry
  simp only [jget_jset_self, jset_jset_self]

theorem stored_jset (kvs ikvs H : List (String × Json)) (e : List (String × Json))
    (hkeys : ∀ p ∈ H, ¬ (p.1 = "manifest.json")) :
    storedManifestSha (.obj (jset kvs "integrity" (.obj (jset ikvs "hashed_files"
        (.obj (H ++ [("manifest.json", .obj e)])))))) = jget e "sha256" := by
  unfold storedManifestSha
  simp only [jget_jset_self]
  have hfind : H.find? (fun p => decide (p.1 = "manifest.json")) = none := by
    rw [List.find?_eq_none]
    intro p hp hdec
    exact (hkeys p hp) (of_decide_eq_true hdec)
  rw [jget, List.find?_append, hfind]
  simp [List.find?]

theorem setHashedFiles_eq_manifestForHash (mkvs : List (String × Json))
    (hashed : List (String × Json))
    (hint : jget mkvs "integrity" = none ∨ ∃ ik, jget mkvs "integrity" = some (.obj ik)) :
    ConverterBase.setHashedFiles (.obj mkvs) hashed =
    ConverterBase.manifestForHash (.obj mkvs) hashed := by
  rcases hint with hnone | ⟨ik, hik⟩
  · have hany : mkvs.any (fun p => p.1 = "integrity") = false := by
      rw [← Bool.not_eq_true]
      intro hx
      rcases List.any_eq_true.mp hx with ⟨p, hp, hdec⟩
      have hfind := Option.map_eq_none.mp hnone
      exact (List.find?_eq_none.mp hfind p hp) hdec
    simp [ConverterBase.setHashedFiles, ConverterBase.manifestForHash, hnone, jset, hany]
  · simp [ConverterBase.setHashedFiles, ConverterBase.manifestForHash, hik]

theorem hashedTable_filter (files : List (String × List Nat)) :
    (ConverterBase.hashedTable files).filter
      (fun p => ¬ (p.1 = "manifest.json")) = ConverterBase.hashedTable files := by
  rw [List.filter_eq_self]
  intro p hp
  simp [hashedTable_keys files p hp]

theorem hashedTable_find_mj (files : List (String × List Nat)) :
    (ConverterBase.hashedTable files).find?
      (fun p => decide (p.1 = "manifest.json")) = none := by
  rw [List.find?_eq_none]
  intro p hp hdec
  exact (hashedTable_keys files p hp) (of_decide_eq_true hdec)

theorem aifm_self_consistent (sfx : String) (ab : List Nat) (cb : Option (List Nat))
    (t cn cc d md : String) :
    storedManifestSha (AifmPackager.build_aifm_manifest sfx ab cb t cn cc d md) =
      some (.str (AifmPackager.sha256_bytes (AifmPackager.canonical_manifest_bytes
        (removeManifestEntry (AifmPackager.build_aifm_manifest sfx ab cb t cn cc d md))))) := by
  unfold AifmPackager.build_aifm_manifest
  rw [aifm_remove, aifm_stored, aifm_remove_noop]
  simp [jget, List.find?]

theorem aifi_self_consistent (ext : String) (ib : List Nat)
    (t cn cc md ver pt : String) (sup : List String) :
    storedManifestSha (AifiPackager.build_aifi_manifest ext ib t cn cc md ver pt sup) =
      some (.str (sha256Hex (AifiPackager.canonical_json_bytes
        (removeManifestEntry (AifiPackager.build_aifi_manifest ext ib t cn cc md ver pt sup))))) := by
  unfold AifiPackager.build_aifi_manifest
  rw [aifi_remove, aifi_stored, aifi_remove]
  simp [jget, List.find?]

theorem converter_self_consistent (files : List (String × List Nat))
    (mkvs : List (String × Json))
    (hint : jget mkvs "integrity" = none ∨ ∃ ik, jget mkvs "integrity" = some (.obj ik)) :
    storedManifestSha (ConverterBase.setHashedFiles (.obj mkvs)
        (ConverterBase.compute_integrity_canonical_excludes_self files (.obj mkvs))) =
      some (.str (sha256Hex (Validator.canonical_manifest_bytes (removeManifestEntry
        (ConverterBase.setHashedFiles (.obj mkvs)
          (ConverterBase.compute_integrity_canonical_excludes_self files (.obj mkvs))))))) := by
  rw [setHashedFiles_eq_manifestForHash _ _ hint]
  show storedManifestSha (ConverterBase.manifestForHash (.obj mkvs) _) = _
  unfold ConverterBase.compute_integrity_canonical_excludes_self
  unfold ConverterBase.manifestForHash
  rw [removeManifestEntry_jset]
  rw [List.filter_append, hashedTable_filter]
  simp only [List.filter_cons, List.filter_nil]
  rw [stored_jset _ _ _ _ (hashedTable_keys files)]
  simp [jget, List.find?, Validator.canonical_manifest_bytes]

/-- `pyGet` succeeds exactly on dict receivers, returning the lookup. -/
theorem pyGet_ok {j : Json} {k : String} {v : Option Json}
    (h : pyGet j k = .ok v) : ∃ kvs, j = .obj kvs ∧ v = jget kvs k := by
  cases j <;> simp [pyGet] at h
  case obj kvs => exact ⟨kvs, rfl, h.symm⟩

/-- Every `CheckResult` produced by `checkMember` carries the member name
as its `path` (each loop branch appends `CheckResult(..., path=member, ...)`). -/
theorem checkMember_path (z : Container) (m mode : Json) (mbl : Nat)
    (member : String) (info : Json) (r : VerifyAifm.CheckResult)
    (h : VerifyAifm.checkMember z m mode mbl member info = .ok r) :
    r.path = member := by
  unfold VerifyAifm.checkMember at h
  cases info <;> simp only [bind, Except.bind, pure, Except.pure] at h
  all_goals repeat' split at h
  all_goals try cases h
  all_goals rfl

/-- The verification loop of `verify` yields exactly one result per
declared entry, in order, labelled with that entry name. -/
theorem mapM_checkMember_paths (z : Container) (m mode : Json) (mbl : Nat) :
    ∀ (hkvs : List (String × Json)) (rs : List VerifyAifm.CheckResult),
      hkvs.mapM (fun kv => VerifyAifm.checkMember z m mode mbl kv.1 kv.2) = .ok rs →
      rs.map (·.path) = hkvs.map Prod.fst := by
  intro hkvs
  induction hkvs with
  | nil =>
    intro rs h
    simp only [List.mapM_nil, pure, Except.pure] at h
    cases h
    simp
  | cons kv tl ih =>
    intro rs h
    rw [List.mapM_cons] at h
    simp only [bind, Except.bind, pure, Except.pure] at h
    cases hc : VerifyAifm.checkMember z m mode mbl kv.1 kv.2 with
    | error e => rw [hc] at h; cases h
    | ok r =>
      rw [hc] at h
      cases ht : List.mapM (fun kv => VerifyAifm.checkMember z m mode mbl kv.1 kv.2) tl with
      | error e => rw [ht] at h; cases h
      | ok rs0 =>
        rw [ht] at h
        cases h
        simp [checkMember_path z m mode mbl kv.1 kv.2 r hc, ih rs0 ht]

/-- A name `zipfile` can read is in the namelist. -/
theorem zread_contains {z : Container} {name : String} {d : List Nat}
    (h : zread z name = some d) : (znamelist z).contains name = true := by
  unfold zread at h
  cases hf : z.reverse.find? (fun e => e.filename = name) with
  | none => rw [hf] at h; cases h
  | some e =>
    have hm : e ∈ z.reverse := List.mem_of_find?_eq_some hf
    have hp := List.find?_some hf
    simp only [decide_eq_true_eq] at hp
    have hz : e ∈ z := List.mem_reverse.mp hm
    simp only [znamelist, List.contains_iff_exists_mem_beq]
    exact ⟨e.filename, List.mem_map_of_mem _ hz, by simp [hp]⟩

/-- `(x or "").strip()` on a string value is `strip` (the empty string is
falsy and strips to itself). -/
theorem orStrip_str (s : String) : orStrip (some (.str s)) = .ok (pyStrip s) := by
  unfold orStrip jor
  by_cases h : s = ""
  · subst h; simp [jtruthy]
  · simp [jtruthy, h]

set_option maxHeartbeats 4000000 in
/-- `_verify_integrity` accepts every container built by `build_aifm`
against the manifest `build_aifm` finalized. -/
theorem c1_integrity (sfx : String) (ab : List Nat) (cb : Option (List Nat))
    (t cn cc d md : String) (now : Nat × Nat × Nat × Nat × Nat × Nat)
    (mkvs : List (String × Json))
    (h : AifmPackager.build_aifm_manifest sfx ab cb t cn cc d md = .obj mkvs) :
    Validator.verify_integrity (AifmPackager.build_aifm_zip sfx ab cb t cn cc d md now)
      mkvs = .ok () := by
  cases cb with
  | none =>
    simp only [AifmPackager.build_aifm_manifest, AifmPackager.aifmManifest,
      AifmPackager.aifmHashedFiles0, AifmPackager.sha256_bytes,
      AifmPackager.canonical_manifest_bytes, Option.isSome] at h
    obtain rfl := (Json.obj.inj h).symm
    simp [Validator.verify_integrity, Validator.verify_file_entry,
      Validator.canonical_manifest_bytes,
      AifmPackager.build_aifm_zip, AifmPackager.build_aifm_manifest_bytes,
      AifmPackager.aifmManifest, AifmPackager.aifmHashedFiles0,
      AifmPackager.sha256_bytes, AifmPackager.canonical_manifest_bytes,
      bind, Except.bind, pure, Except.pure, List.forM,
      jget, jor, jtruthy, jeqStr, jset, pyGet, asStr, zread, znamelist,
      removeManifestEntry, sha256Hex_ne_empty,
      audioRel_ne_manifest, Ne.symm (audioRel_ne_manifest sfx),
      show asciiLower "sha256" = "sha256" from rfl]
  | some cbb =>
    simp only [AifmPackager.build_aifm_manifest, AifmPackager.aifmManifest,
      AifmPackager.aifmHashedFiles0, AifmPackager.sha256_bytes,
      AifmPackager.canonical_manifest_bytes, Option.isSome] at h
    obtain rfl := (Json.obj.inj h).symm
    simp [Validator.verify_integrity, Validator.verify_file_entry,
      Validator.canonical_manifest_bytes,
      AifmPackager.build_aifm_zip, AifmPackager.build_aifm_manifest_bytes,
      AifmPackager.aifmManifest, AifmPackager.aifmHashedFiles0,
      AifmPackager.sha256_bytes, AifmPackager.canonical_manifest_bytes,
      bind, Except.bind, pure, Except.pure, List.forM,
      jget, jor, jtruthy, jeqStr, jset, pyGet, asStr, zread, znamelist,
      removeManifestEntry, sha256Hex_ne_empty,
      audioRel_ne_manifest, Ne.symm (audioRel_ne_manifest sfx),
      audioRel_ne_cover, Ne.symm (audioRel_ne_cover sfx),
      coverRel_ne_manifest, Ne.symm coverRel_ne_manifest,
      show asciiLower "sha256" = "sha256" from rfl]

/-! # Claim theorems -/

/-- Claim C5: for every successful build, the finalized manifest is
self-consistent — deep-copying it, removing the manifest's own entry from
`integrity.hashed_files`, canonically serializing the result and hashing
it reproduces exactly the digest stored under the manifest's own entry
name in the integrity block. Proved for `build_aifm`, `build_aifi`, and
converter-based packaging (`compute_integrity_canonical_excludes_self`
as installed by `build_package`, for any manifest whose `integrity`
field is absent or an object, which every caller satisfies). -/
theorem claim_C5 :
    (∀ sfx ab cb t cn cc d md,
      storedManifestSha (AifmPackager.build_aifm_manifest sfx ab cb t cn cc d md) =
        some (.str (AifmPackager.sha256_bytes (AifmPackager.canonical_manifest_bytes
          (removeManifestEntry (AifmPackager.build_aifm_manifest sfx ab cb t cn cc d md)))))) ∧
    (∀ ext ib t cn cc md ver pt sup,
      storedManifestSha (AifiPackager.build_aifi_manifest ext ib t cn cc md ver pt sup) =
        some (.str (sha256Hex (AifiPackager.canonical_json_bytes
          (removeManifestEntry (AifiPackager.build_aifi_manifest ext ib t cn cc md ver pt sup)))))) ∧
    (∀ files mkvs,
      (jget mkvs "integrity" = none ∨ ∃ ik, jget mkvs "integrity" = some (.obj ik)) →
      storedManifestSha (ConverterBase.setHashedFiles (.obj mkvs)
          (ConverterBase.compute_integrity_canonical_excludes_self files (.obj mkvs))) =
        some (.str (sha256Hex (Validator.canonical_manifest_bytes (removeManifestEntry
          (ConverterBase.setHashedFiles (.obj mkvs)
            (ConverterBase.compute_integrity_canonical_excludes_self files (.obj mkvs)))))))) :=
  ⟨aifm_self_consistent, aifi_self_consistent, converter_self_consistent⟩

/-- Witness for C5: its converter conjunct applied to a concrete staging
set and manifest skeleton, the hypothesis discharged by evaluation. -/
theorem claim_C5_witness :
    jget c5wKvs "integrity" = none ∧
    storedManifestSha (ConverterBase.setHashedFiles (.obj c5wKvs)
        (ConverterBase.compute_integrity_canonical_excludes_self c5wFiles (.obj c5wKvs))) =
      some (.str (sha256Hex (Validator.canonical_manifest_bytes (removeManifestEntry
        (ConverterBase.setHashedFiles (.obj c5wKvs)
          (ConverterBase.compute_integrity_canonical_excludes_self c5wFiles (.obj c5wKvs))))))) :=
  ⟨rfl, claim_C5.2.2 c5wFiles c5wKvs (Or.inl rfl)⟩

/-- Claim C2 (amended): the hash-input canonicalization (sorted keys,
compact separators, UTF-8) is one pure function shared identically by
the AIFM/AIFV/AIFI packagers and validator.py, and its key ordering is
lexicographic regardless of insertion order; verify_aifm.py instead
serializes with indent=2 in insertion order, so the build and
verify_aifm paths do NOT share the transformation (see the
counterexample). -/
theorem claim_C2 :
    (∀ m, AifmPackager.canonical_manifest_bytes m = Validator.canonical_manifest_bytes m) ∧
    (∀ m, AifiPackager.canonical_json_bytes m = AifmPackager.canonical_manifest_bytes m) ∧
    (∀ kvs, List.Sorted (fun a b : String × Json => strLe a.1 b.1 = true) (sortFields kvs)) ∧
    (∀ kvs kvs2 : List (String × Json), kvs.Perm kvs2 → (kvs.map Prod.fst).Nodup →
      dumpCompact (Json.obj kvs).sortKeys = dumpCompact (Json.obj kvs2).sortKeys) := by
  refine ⟨fun m => rfl, fun m => rfl, ?_, ?_⟩
  · intro kvs
    haveI : IsTotal (String × Json) (fun a b => strLe a.1 b.1 = true) :=
      ⟨fun a b => strLe_total a.1 b.1⟩
    haveI : IsTrans (String × Json) (fun a b => strLe a.1 b.1 = true) :=
      ⟨fun a b c => strLe_trans⟩
    exact List.sorted_insertionSort _ kvs
  · intro kvs kvs2 hp hn
    show dumpCompact (.obj (sortFields (sortKeysFields kvs))) =
      dumpCompact (.obj (sortFields (sortKeysFields kvs2)))
    have hperm : (sortKeysFields kvs).Perm (sortKeysFields kvs2) := by
      rw [sortKeysFields_eq_map, sortKeysFields_eq_map]
      exact hp.map _
    have hnd : ((sortKeysFields kvs).map Prod.fst).Nodup := by
      rw [sortKeysFields_eq_map, List.map_map]
      exact hn
    rw [show sortFields (sortKeysFields kvs) = sortFields (sortKeysFields kvs2) from
      sortPairs_eq_of_perm _ _ hperm hnd]

/-- Witness for C2: the order-invariance conjunct applied to a concrete
transposed pair of key lists. -/
theorem claim_C2_witness :
    ([("b", Json.num 1), ("a", Json.num 2)] : List (String × Json)).Perm
      [("a", Json.num 2), ("b", Json.num 1)] ∧
    (([("b", Json.num 1), ("a", Json.num 2)] : List (String × Json)).map Prod.fst).Nodup ∧
    dumpCompact (Json.obj [("b", Json.num 1), ("a", Json.num 2)]).sortKeys =
      dumpCompact (Json.obj [("a", Json.num 2), ("b", Json.num 1)]).sortKeys :=
  ⟨List.Perm.swap _ _ _, by decide,
   claim_C2.2.2.2 _ _ (List.Perm.swap _ _ _) (by decide)⟩

/-- Claim C2 counterexample: on the manifest `c2Manifest` the verifier
succeeds but produces different bytes (indent-2, insertion order) than
the packagers' hash-input transformation (strip, then sorted compact
serialization), refuting "produce the same byte sequence". -/
theorem claim_C2_counterexample :
    (VerifyAifm.canonical_manifest_bytes c2Manifest
        (Json.str "canonical_excludes_self")).toOption.isSome = true ∧
    ¬ ((VerifyAifm.canonical_manifest_bytes c2Manifest
        (Json.str "canonical_excludes_self")).toOption =
      some (AifmPackager.canonical_manifest_bytes (removeManifestEntry c2Manifest))) := by
  constructor
  · rfl
  · decide

/-- Claim C4 (amended): `write_zip_deterministic` stamps every entry with
the fixed timestamp (1980, 1, 1, 0, 0, 0) and fixed attributes, and its
output is independent of the staging order, so converter-based builds
from byte-identical inputs are byte-identical; the direct packagers
(`build_aifm` and siblings) instead stamp entries with the build-time
wall clock, so their repeated builds differ in entry timestamps (see the
counterexample). -/
theorem claim_C4 :
    (∀ files, ∀ e ∈ ConverterBase.write_zip_deterministic files,
       e.dateTime = (1980, 1, 1, 0, 0, 0) ∧ e.externalAttr = 0o600 <<< 16) ∧
    (∀ files files2 : List (String × List Nat), files.Perm files2 →
       (files.map Prod.fst).Nodup →
       ConverterBase.write_zip_deterministic files = ConverterBase.write_zip_deterministic files2) := by
  constructor
  · intro files e he
    rcases List.mem_map.mp he with ⟨f, _, hfe⟩
    rw [← hfe]
    exact ⟨rfl, rfl⟩
  · intro files files2 hp hn
    unfold ConverterBase.write_zip_deterministic ConverterBase.sortedFiles
    rw [sortPairs_eq_of_perm _ _ hp hn]

/-- Witness for C4 at a concrete staging set and its reordering. -/
theorem claim_C4_witness :
    (c4wEntry ∈ ConverterBase.write_zip_deterministic c4wFiles) ∧
    (c4wEntry.dateTime = (1980, 1, 1, 0, 0, 0) ∧ c4wEntry.externalAttr = 0o600 <<< 16) ∧
    c4wFiles.Perm c4wFiles2 ∧ (c4wFiles.map Prod.fst).Nodup ∧
    ConverterBase.write_zip_deterministic c4wFiles =
      ConverterBase.write_zip_deterministic c4wFiles2 :=
  ⟨by decide, claim_C4.1 c4wFiles c4wEntry (by decide), List.Perm.swap _ _ _, by decide,
   claim_C4.2 _ _ (List.Perm.swap _ _ _) (by decide)⟩

/-- Claim C4 counterexample: two `build_aifm` runs from byte-identical
inputs at different wall-clock times produce containers whose entries
carry the run's time, not a fixed timestamp, and the containers differ. -/
theorem claim_C4_counterexample :
    c4Zip1.map (·.dateTime) = [(2024, 1, 1, 0, 0, 0), (2024, 1, 1, 0, 0, 0)] ∧
    c4Zip2.map (·.dateTime) = [(2024, 1, 1, 0, 0, 2), (2024, 1, 1, 0, 0, 2)] ∧
    ¬ (c4Zip1 = c4Zip2) := by
  refine ⟨rfl, rfl, fun h => ?_⟩
  have h2 := congrArg (fun z : Container => z.map (·.dateTime)) h
  exact absurd h2 (by decide)

theorem jor_str (a : String) : jor (some (.str a)) (.str "") = .str a := by
  by_cases h : a = "" <;> simp [jor, jtruthy, h]

theorem verifyIntegrity_requires_integrity (z : Container) (mkvs : List (String × Json))
    (h : jget mkvs "integrity" = none) :
    Validator.verify_integrity z mkvs = .error (.validation "manifest.integrity missing") := by
  simp only [Validator.verify_integrity]
  rw [h]
  rfl

theorem verifyIntegrity_requires_sha256 (z : Container) (mkvs ik : List (String × Json))
    (a : String)
    (hji : jget mkvs "integrity" = some (.obj ik))
    (hja : jget ik "algorithm" = some (.str a))
    (hne : ¬ (asciiLower a = "sha256")) :
    Validator.verify_integrity z mkvs =
      .error (.validation ("Unsupported integrity.algorithm: " ++ pyRepr (asciiLower a))) := by
  cases ik with
  | nil => simp [jget] at hja
  | cons p ps =>
    simp only [Validator.verify_integrity]
    rw [hji]
    have h1 : jor (some (Json.obj (p :: ps))) (Json.obj []) = Json.obj (p :: ps) := by
      simp [jor, jtruthy]
    rw [h1]
    simp only [pyGet, bind, Except.bind]
    rw [hja, jor_str]
    simp only [asStr, bind, Except.bind]
    simp only [jtruthy, List.isEmpty_cons, Bool.not_false, not_true, if_false]
    rw [if_pos hne]
    rfl

theorem checkMember_manifest_unsupported_mode (z : Container) (manifest mode : Json)
    (mlen : Nat) (info : Json) (r : VerifyAifm.CheckResult)
    (hm : ¬ (jeqStr mode "canonical_excludes_self" = true))
    (hr : VerifyAifm.checkMember z manifest mode mlen "manifest.json" info = .ok r) :
    r.ok = false := by
  have hmf : jeqStr mode "canonical_excludes_self" = false := by
    cases hb : jeqStr mode "canonical_excludes_self"
    · rfl
    · exact absurd hb hm
  cases info with
  | obj ikvs =>
    simp only [VerifyAifm.checkMember] at hr
    rcases hstr : asStr (jor (jget ikvs "sha256") (Json.str "")) with e | s <;> rw [hstr] at hr
    · simp [bind, Except.bind] at hr
    · simp only [bind, Except.bind] at hr
      split at hr
      · rw [← Except.ok.inj hr]
      · split at hr
        · split at hr
          · rw [← Except.ok.inj hr]
          · split at hr
            · rw [← Except.ok.inj hr]
            · rename_i hcontra
              simp at hcontra
        · rw [← Except.ok.inj hr]
  | null => simp only [VerifyAifm.checkMember] at hr; rw [← Except.ok.inj hr]
  | bool b => simp only [VerifyAifm.checkMember] at hr; rw [← Except.ok.inj hr]
  | num n => simp only [VerifyAifm.checkMember] at hr; rw [← Except.ok.inj hr]
  | str t => simp only [VerifyAifm.checkMember] at hr; rw [← Except.ok.inj hr]
  | arr xs => simp only [VerifyAifm.checkMember] at hr; rw [← Except.ok.inj hr]

/-- Claim C8 (amended): both verifiers fail fast on a missing integrity
block or an algorithm other than sha256, and verify_aifm.py never lets
the manifest-hash check pass under an unsupported `manifest_hash_mode`;
validator.py's `_verify_integrity`, however, does not fail fast on an
unsupported mode — it falls back to hashing the container's raw
`manifest.json` bytes, and that fallback can pass (see the
counterexample). -/
theorem claim_C8 :
    (∀ z mkvs, jget mkvs "integrity" = none →
      Validator.verify_integrity z mkvs = .error (.validation "manifest.integrity missing")) ∧
    (∀ z (mkvs ik : List (String × Json)) a,
      jget mkvs "integrity" = some (.obj ik) →
      jget ik "algorithm" = some (.str a) →
      ¬ (asciiLower a = "sha256") →
      Validator.verify_integrity z mkvs =
        .error (.validation ("Unsupported integrity.algorithm: " ++ pyRepr (asciiLower a)))) ∧
    (∀ z manifest mode mlen info r,
      ¬ (jeqStr mode "canonical_excludes_self" = true) →
      VerifyAifm.checkMember z manifest mode mlen "manifest.json" info = .ok r →
      r.ok = false) :=
  ⟨verifyIntegrity_requires_integrity, verifyIntegrity_requires_sha256,
   checkMember_manifest_unsupported_mode⟩

/-- Witness for C8: each conjunct applied at concrete inputs. -/
theorem claim_C8_witness :
    (jget ([] : List (String × Json)) "integrity" = none ∧
     Validator.verify_integrity [] [] = .error (.validation "manifest.integrity missing")) ∧
    (jget [("integrity", Json.obj [("algorithm", Json.str "MD5")])] "integrity" =
        some (.obj [("algorithm", Json.str "MD5")]) ∧
     ¬ (asciiLower "MD5" = "sha256") ∧
     Validator.verify_integrity ([] : Container)
        [("integrity", Json.obj [("algorithm", Json.str "MD5")])] =
       .error (.validation ("Unsupported integrity.algorithm: " ++ pyRepr (asciiLower "MD5")))) ∧
    (¬ (jeqStr (Json.str "raw") "canonical_excludes_self" = true) ∧
     VerifyAifm.checkMember [] (.obj []) (.str "raw") 5 "manifest.json" c8wInfo = .ok c8wRes ∧
     c8wRes.ok = false) :=
  ⟨⟨rfl, claim_C8.1 [] [] rfl⟩,
   ⟨rfl, by decide,
    claim_C8.2.1 [] [("integrity", Json.obj [("algorithm", Json.str "MD5")])]
      [("algorithm", Json.str "MD5")] "MD5" rfl rfl (by decide)⟩,
   ⟨by decide, by rfl,
    claim_C8.2.2 [] (.obj []) (.str "raw") 5 c8wInfo c8wRes (by decide) (by rfl)⟩⟩

set_option maxRecDepth 100000 in
/-- Claim C8 counterexample: a manifest with the unsupported
`manifest_hash_mode` `"raw"` passes `_verify_integrity` in full — the
fallback hashes the container's raw `manifest.json` bytes instead of
failing fast. -/
theorem claim_C8_counterexample :
    Validator.verify_integrity c8Zip c8Kvs = Except.ok () ∧
    declaredMode (.obj c8Kvs) = Json.str "raw" := by
  constructor
  · rfl
  · rfl


theorem head_of_append_left {p : String} {c : Char}
    (hp : p.data.head? = some c) (s : String) : (p ++ s).data.head? = some c := by
  rw [data_append, List.head?_append, hp]
  rfl

theorem pyGet_error {j : Json} {k : String} {e : PyErr} (h : pyGet j k = .error e) :
    e = .typeErr := by
  cases j <;> simp [pyGet] at h <;> simp_all

theorem asStr_error {j : Json} {e : PyErr} (h : asStr j = .error e) : e = .typeErr := by
  cases j <;> simp [asStr] at h <;> simp_all

theorem verify_file_entry_msg (z : Container) (kv : String × Json) (msg : String)
    (h : Validator.verify_file_entry z kv = .error (.validation msg)) :
    ¬ (msg.data.head? = some 'a') := by
  simp only [Validator.verify_file_entry] at h
  rcases kv with ⟨relpath, meta⟩
  cases meta <;> simp only [] at h
  case obj mv =>
    split at h
    · have h2 := PyErr.validation.inj (Except.error.inj h)
      rw [← h2]
      rw [head_of_append_left (show ("Missing sha256 for ").data.head? = some 'M' from rfl) _]
      decide
    · split at h
      · simp [pure, Except.pure] at h
      · split at h
        · have h2 := PyErr.validation.inj (Except.error.inj h)
          rw [← h2]
          rw [head_of_append_left
            (show ("File not found in package: ").data.head? = some 'F' from rfl) _]
          decide
        · split at h
          · have h2 := PyErr.validation.inj (Except.error.inj h)
            rw [← h2]
            rw [head_of_append_left (head_of_append_left (head_of_append_left
              (head_of_append_left (head_of_append_left
                (show ("Hash mismatch for ").data.head? = some 'H' from rfl) _) _) _) _) _]
            decide
          · simp [pure, Except.pure] at h
  all_goals
    have h2 := PyErr.validation.inj (Except.error.inj h)
    rw [← h2]
    rw [head_of_append_left (head_of_append_left
      (show ("integrity.hashed_files[").data.head? = some 'i' from rfl) _) _]
    decide

theorem forM_verify_file_entry_msg (z : Container) (msg : String) :
    ∀ l : List (String × Json),
    l.forM (Validator.verify_file_entry z) = .error (.validation msg) →
    ¬ (msg.data.head? = some 'a') := by
  intro l
  induction l with
  | nil => intro h; simp only [List.forM] at h; simp [pure, Except.pure] at h
  | cons kv rest ih =>
    intro h
    simp only [List.forM] at h
    rcases he : Validator.verify_file_entry z kv with e | u <;> rw [he] at h
    · simp only [bind, Except.bind] at h
      rw [Except.error.inj h] at he
      exact verify_file_entry_msg z kv msg he
    · simp only [bind, Except.bind] at h
      exact ih h

theorem verify_integrity_msg (z : Container) (mkvs : List (String × Json)) (msg : String)
    (h : Validator.verify_integrity z mkvs = .error (.validation msg)) :
    ¬ (msg.data.head? = some 'a') := by
  simp only [Validator.verify_integrity] at h
  rcases h1 : pyGet (jor (jget mkvs "integrity") (Json.obj [])) "algorithm" with e | algoJ <;>
    rw [h1] at h <;> (try simp only [bind, Except.bind] at h)
  · obtain rfl := pyGet_error h1
    exact PyErr.noConfusion (Except.error.inj h)
  rcases h2 : asStr (jor algoJ (Json.str "")) with e | algoS <;>
    rw [h2] at h <;> (try simp only [bind, Except.bind] at h)
  · obtain rfl := asStr_error h2
    exact PyErr.noConfusion (Except.error.inj h)
  rcases h3 : pyGet (jor (jget mkvs "integrity") (Json.obj [])) "hashed_files" with e | hfJ <;>
    rw [h3] at h <;> (try simp only [bind, Except.bind] at h)
  · obtain rfl := pyGet_error h3
    exact PyErr.noConfusion (Except.error.inj h)
  rcases h4 : pyGet (jor (jget mkvs "integrity") (Json.obj [])) "manifest_hash_mode" with e | modeJ <;>
    rw [h4] at h <;> (try simp only [bind, Except.bind, pure, Except.pure] at h)
  · obtain rfl := pyGet_error h4
    exact PyErr.noConfusion (Except.error.inj h)
  split at h
  · have h5 := PyErr.validation.inj (Except.error.inj h)
    rw [← h5]
    decide
  split at h
  · have h5 := PyErr.validation.inj (Except.error.inj h)
    rw [← h5]
    rw [head_of_append_left
      (show ("Unsupported integrity.algorithm: ").data.head? = some 'U' from rfl) _]
    decide
  split at h
  case _ kv rest heq =>
    try simp only [bind, Except.bind, pure, Except.pure] at h
    rcases h6 : (kv :: rest).forM (Validator.verify_file_entry z) with e | u <;>
      rw [h6] at h <;> (try simp only [bind, Except.bind, pure, Except.pure] at h)
    · rw [Except.error.inj h] at h6
      exact forM_verify_file_entry_msg z msg _ h6
    · split at h
      · have h5 := PyErr.validation.inj (Except.error.inj h)
        rw [← h5]
        decide
      rcases h7 : pyGet (jor (jget (kv :: rest) "manifest.json") (Json.obj [])) "sha256"
          with e | emh <;>
        rw [h7] at h <;> (try simp only [bind, Except.bind, pure, Except.pure] at h)
      · obtain rfl := pyGet_error h7
        exact PyErr.noConfusion (Except.error.inj h)
      split at h
      · have h5 := PyErr.validation.inj (Except.error.inj h)
        rw [← h5]
        decide
      split at h
      · split at h
        · have h5 := PyErr.validation.inj (Except.error.inj h)
          rw [← h5]
          rw [head_of_append_left (head_of_append_left (head_of_append_left
            (show ("Hash mismatch for manifest.json: expected ").data.head? = some 'H' from rfl)
              _) _) _]
          decide
        · simp at h
      · split at h
        case _ data hread =>
          try simp only [bind, Except.bind, pure, Except.pure] at h
          split at h
          · have h5 := PyErr.validation.inj (Except.error.inj h)
            rw [← h5]
            rw [head_of_append_left (head_of_append_left (head_of_append_left
              (show ("Hash mismatch for manifest.json: expected ").data.head? = some 'H' from rfl)
                _) _) _]
            decide
          · simp at h
        case _ hread =>
          exact PyErr.noConfusion (Except.error.inj h)
  · have h5 := PyErr.validation.inj (Except.error.inj h)
    rw [← h5]
    decide

theorem mem_if_singleton {α} (a b : α) (c : Prop) [Decidable c] :
    a ∈ (if c then ([] : List α) else [b]) ↔ (¬ c ∧ a = b) := by
  by_cases h : c <;> simp [h]

/-- Claim C9 (amended): `validate_aifx_package` treats the AI declaration
as a disjunction, not a conjunction: an ai-declaration error is recorded
iff the `ai_generated` flag is not strictly boolean True AND the declared
mode is outside the closed enumeration; either one alone satisfies the
check, so a manifest violating one of the two conditions can be reported
fully valid (see the counterexample). -/
theorem claim_C9 (z : Container) (mkvs : List (String × Json)) (pkg : String) (dr : Bool)
    (r : VResults) (ms : String)
    (hb : Validator.validateBody z mkvs
      { package := pkg, valid := true, errors := [], warnings := [],
        checks := [("manifest", CheckVal.s "ok")], dryRun := dr } = (r, none))
    (hms : orStrip (jget mkvs "mode") = .ok ms) :
    (("ai declaration missing (expected ai_generated:true or mode in \x7bhuman-directed-ai, ai-assisted, ai-generated\x7d)" ∈ r.errors) ↔
      (bool_is_true ((jget mkvs "ai_generated").getD .null) = false ∧
       ¬ (ms = "human-directed-ai" ∨ ms = "ai-assisted" ∨ ms = "ai-generated"))) := by
  simp only [Validator.validateBody] at hb
  split at hb
  · simp at hb
  split at hb
  · simp at hb
  split at hb
  · simp at hb
  split at hb
  · simp at hb
  split at hb
  · simp at hb
  case _ ms2 heqms =>
  rw [hms] at heqms
  obtain rfl := Except.ok.inj heqms
  split at hb
  case _ u hver =>
    have hr := (Prod.mk.injEq _ _ _ _).mp hb
    rw [← hr.1]
    simp [List.mem_append, mem_if_singleton, not_or, Bool.not_eq_true]
  case _ msg hver =>
    have hne : ¬ (("ai declaration missing (expected ai_generated:true or mode in \x7bhuman-directed-ai, ai-assisted, ai-generated\x7d)" : String) = msg) := by
      intro he
      exact (verify_integrity_msg z mkvs msg hver) (by rw [← he]; rfl)
    have hr := (Prod.mk.injEq _ _ _ _).mp hb
    rw [← hr.1]
    simp [List.mem_append, mem_if_singleton, not_or, Bool.not_eq_true, hne]
  case _ e hver =>
    simp at hb

set_option maxRecDepth 1000000 in
/-- Witness for C9 on the concrete C9 package. -/
theorem claim_C9_witness :
    Validator.validateBody c9Zip c9Kvs c9Init = (c9R, none) ∧
    orStrip (jget c9Kvs "mode") = .ok "ai-assisted" ∧
    (("ai declaration missing (expected ai_generated:true or mode in \x7bhuman-directed-ai, ai-assisted, ai-generated\x7d)" ∈ c9R.errors) ↔
      (bool_is_true ((jget c9Kvs "ai_generated").getD .null) = false ∧
       ¬ (("ai-assisted" : String) = "human-directed-ai" ∨ ("ai-assisted" : String) = "ai-assisted" ∨ ("ai-assisted" : String) = "ai-generated"))) :=
  ⟨by rfl, by rfl, claim_C9 c9Zip c9Kvs "p.aifx" true c9R "ai-assisted" (by rfl) (by rfl)⟩

set_option maxRecDepth 1000000 in
/-- Claim C9 counterexample: a package whose manifest has
`ai_generated: false` (violating the strictly-boolean-true condition) is
reported fully valid with zero errors because its mode is in the
enumeration. -/
theorem claim_C9_counterexample :
    jget c9Kvs "ai_generated" = some (Json.bool false) ∧
    (Validator.validate_aifx_package c9Zip (some (.obj c9Kvs)) "p.aifx" true).valid = true ∧
    (Validator.validate_aifx_package c9Zip (some (.obj c9Kvs)) "p.aifx" true).errors = [] := by
  refine ⟨rfl, rfl, rfl⟩

/-- Claim C10 (implicit): when the manifest's top-level `author` field is
a string with non-empty stripped content, the author check of
`validate_aifx_package` passes and no author error is recorded, even when
`creator.name` is absent or empty — either identity source satisfies the
check. -/
theorem claim_C10 (z : Container) (mkvs : List (String × Json)) (pkg : String) (dr : Bool)
    (r : VResults) (a : String)
    (ha : jget mkvs "author" = some (.str a))
    (hne : ¬ (pyStrip a = ""))
    (hb : Validator.validateBody z mkvs
      { package := pkg, valid := true, errors := [], warnings := [],
        checks := [("manifest", CheckVal.s "ok")], dryRun := dr } = (r, none)) :
    ¬ ("author missing (expected \x27author\x27 or \x27creator.name\x27)" ∈ r.errors) ∧
    ("author", CheckVal.b true) ∈ r.checks := by
  simp only [Validator.validateBody] at hb
  rw [ha] at hb
  split at hb
  · simp at hb
  split at hb
  · simp at hb
  split at hb
  · simp at hb
  split at hb
  · simp at hb
  split at hb
  · simp at hb
  split at hb
  case _ u hver =>
    have hr := (Prod.mk.injEq _ _ _ _).mp hb
    rw [← hr.1]
    constructor
    · simp [List.mem_append, mem_if_singleton, hne]
    · simp [cset, hne]
  case _ msg hver =>
    have hmsg : ¬ (("author missing (expected \x27author\x27 or \x27creator.name\x27)" : String) = msg) := by
      intro he
      exact (verify_integrity_msg z mkvs msg hver) (by rw [← he]; rfl)
    have hr := (Prod.mk.injEq _ _ _ _).mp hb
    rw [← hr.1]
    constructor
    · simp [List.mem_append, mem_if_singleton, hne, hmsg]
    · simp [cset, hne]
  case _ e hver =>
    simp at hb

/-- Witness for C10 on a manifest with only a top-level author string. -/
theorem claim_C10_witness :
    jget c10Kvs "author" = some (.str "Bob") ∧ ¬ (pyStrip "Bob" = "") ∧
    Validator.validateBody [] c10Kvs c9Init = (c10R, none) ∧
    (¬ ("author missing (expected \x27author\x27 or \x27creator.name\x27)" ∈ c10R.errors) ∧
     ("author", CheckVal.b true) ∈ c10R.checks) :=
  ⟨rfl, by decide, by rfl,
   claim_C10 [] c10Kvs "p.aifx" true c10R "Bob" rfl (by decide) (by rfl)⟩

/-- C3: As written, the claim says validation enforces path safety: any entry
whose name is a traversal/absolute path, or that is a symlink, causes a
security error.  That is true of `validate_aifv` (aifv_validator.py), which we
prove records the security error first in its error list for every such
container; but `validate_aifx_package` — the only validation entrypoint that
the CLI, desktop UI and MCP server actually call — performs no path screening
at all, and the counterexample shows a package containing a `../evil`
traversal entry that it reports fully valid.  Corrected: the path-safety
guarantee holds only for the (never-invoked) AIFV validator. -/
theorem claim_C3 (z : Container) (mkvs : List (String × Json))
    (h : ∃ zi ∈ z, AifvValidator.is_unsafe_path zi.filename = true ∨
         AifvValidator.zipinfo_is_symlink zi = true) :
    (("security: unsafe path detected (possible zip-slip)" ∈ (AifvValidator.validate_aifv z mkvs).2.1 ∨
      "security: symlinks are not allowed" ∈ (AifvValidator.validate_aifv z mkvs).2.1) ∧
     ((AifvValidator.validate_aifv z mkvs).2.1.head? = some "security: unsafe path detected (possible zip-slip)" ∨
      (AifvValidator.validate_aifv z mkvs).2.1.head? = some "security: symlinks are not allowed")) := by
  by_cases hu : z.any (fun zi => AifvValidator.is_unsafe_path zi.filename) = true
  · simp only [AifvValidator.validate_aifv, hu]
    constructor
    · left; simp
    · left; simp [List.head?_append]
  · have hs : z.any (fun zi => AifvValidator.zipinfo_is_symlink zi) = true := by
      rcases h with ⟨zi, hmem, hcase | hcase⟩
      · exact absurd (List.any_eq_true.mpr ⟨zi, hmem, hcase⟩) hu
      · exact List.any_eq_true.mpr ⟨zi, hmem, hcase⟩
    simp only [AifvValidator.validate_aifv, hu, hs]
    constructor
    · right; simp
    · right; simp [List.head?_append]

/-- C3 witness: the amended theorem applied to the concrete container holding
 the traversal entry `../evil`. -/
theorem claim_C3_witness :
    (∃ zi ∈ c3Zip, AifvValidator.is_unsafe_path zi.filename = true ∨
       AifvValidator.zipinfo_is_symlink zi = true) ∧
    (("security: unsafe path detected (possible zip-slip)" ∈ (AifvValidator.validate_aifv c3Zip c3Kvs).2.1 ∨
      "security: symlinks are not allowed" ∈ (AifvValidator.validate_aifv c3Zip c3Kvs).2.1) ∧
     ((AifvValidator.validate_aifv c3Zip c3Kvs).2.1.head? =
        some "security: unsafe path detected (possible zip-slip)" ∨
      (AifvValidator.validate_aifv c3Zip c3Kvs).2.1.head? =
        some "security: symlinks are not allowed")) :=
  ⟨⟨⟨"../evil", utf8Bytes "evil", (2024, 1, 1, 0, 0, 0), 0⟩, by decide, Or.inl (by decide)⟩,
   claim_C3 c3Zip c3Kvs
     ⟨⟨"../evil", utf8Bytes "evil", (2024, 1, 1, 0, 0, 0), 0⟩, by decide, Or.inl (by decide)⟩⟩

set_option maxRecDepth 1000000 in
/-- C3 counterexample to the claim as written: a package whose container holds
 the traversal entry `../evil` (declared and correctly hashed in the manifest)
 is reported fully valid by `validate_aifx_package`, the entrypoint every
 caller uses — no path-safety error is raised anywhere on that path. -/
theorem claim_C3_counterexample :
    AifvValidator.is_unsafe_path "../evil" = true ∧
    (Validator.validate_aifx_package c3Zip (some (.obj c3Kvs)) "evil.aifx" true).valid = true ∧
    (Validator.validate_aifx_package c3Zip (some (.obj c3Kvs)) "evil.aifx" true).errors = [] :=
  ⟨by decide, by rfl, by rfl⟩


/-- C6: As written, the claim holds of only one of its two cited verifiers.
Amended and proved here: whenever `verify` (verify_aifm.py) returns a
report, that report names every declared `hashed_files` entry, in order —
the loop appends one `CheckResult` per entry and never stops early, so all
mismatches are collected.  `validator.py`'s `_verify_integrity`, by
contrast, raises `ValidationError` at the first failed check, so
`validate_aifx_package` reports only the first broken entry (see the
counterexample). -/
theorem claim_C6 (z : Container) (m : Json) (b : Bool) (rs : List VerifyAifm.CheckResult)
    (h : VerifyAifm.verify z m = .ok (b, rs)) :
    rs.map (·.path) = (declaredEntries m).map Prod.fst := by
  simp only [VerifyAifm.verify] at h
  split at h
  · exact Except.noConfusion h
  rcases h1 : pyGet m "integrity" with e | integrityO <;>
    rw [h1] at h <;> (try simp only [bind, Except.bind] at h)
  · exact Except.noConfusion h
  obtain ⟨mkvs, rfl, hIO⟩ := pyGet_ok h1
  rcases h2 : pyGet (jor integrityO (Json.obj [])) "algorithm" with e | algoJ <;>
    rw [h2] at h <;> (try simp only [bind, Except.bind] at h)
  · exact Except.noConfusion h
  rcases h3 : asStr (jor algoJ (Json.str "")) with e | algoS <;>
    rw [h3] at h <;> (try simp only [bind, Except.bind] at h)
  · exact Except.noConfusion h
  rcases h4 : pyGet (jor integrityO (Json.obj [])) "hashed_files" with e | hfJ <;>
    rw [h4] at h <;> (try simp only [bind, Except.bind] at h)
  · exact Except.noConfusion h
  rcases h5 : pyGet (jor integrityO (Json.obj [])) "manifest_hash_mode" with e | modeJ <;>
    rw [h5] at h <;> (try simp only [bind, Except.bind, pure, Except.pure] at h)
  · exact Except.noConfusion h
  split at h
  · exact Except.noConfusion h
  split at h
  case _ kv rest heq =>
    try simp only [bind, Except.bind, pure, Except.pure] at h
    rcases h6 : (kv :: rest).mapM
        (fun kv => VerifyAifm.checkMember z (.obj mkvs) (jor modeJ (.str ""))
          ((zread z "manifest.json").getD []).length kv.1 kv.2) with e | results <;>
      rw [h6] at h <;> (try simp only [bind, Except.bind, pure, Except.pure] at h)
    · exact Except.noConfusion h
    obtain ⟨hb, hrs⟩ := Prod.mk.inj (Except.ok.inj h)
    obtain ⟨ikvs, hInt, hAlgoJ⟩ := pyGet_ok h2
    obtain ⟨ikvsB, hIntB, hHf⟩ := pyGet_ok h4
    rw [hInt] at hIntB
    obtain rfl := Json.obj.inj hIntB
    have hpaths := mapM_checkMember_paths z (.obj mkvs) (jor modeJ (.str ""))
      (((zread z "manifest.json").getD []).length) (kv :: rest) results h6
    have hdecl : declaredEntries (.obj mkvs) = kv :: rest := by
      simp only [declaredEntries, ← hIO, hInt, ← hHf, heq]
    rw [hdecl, ← hrs, hpaths]
  · exact Except.noConfusion h

set_option maxRecDepth 1000000 in
/-- C6 witness: on the concrete package with two missing declared entries,
`verify` still reports all three declared names (and the report is a
failing one, not an early abort). -/
theorem claim_C6_witness :
    VerifyAifm.verify c6Zip (.obj c6Kvs) = .ok (c6P.1, c6P.2) ∧
    c6P.1 = false ∧
    c6P.2.map (fun r => VerifyAifm.CheckResult.path r) =
      (declaredEntries (.obj c6Kvs)).map Prod.fst :=
  ⟨by rfl, by rfl, claim_C6 c6Zip (.obj c6Kvs) c6P.1 c6P.2 (by rfl)⟩

set_option maxRecDepth 1000000 in
/-- C6 counterexample to the claim as written: both `a.txt` and `b.txt`
are broken (missing from the container though declared), yet
`validate_aifx_package` reports exactly one error, naming only `a.txt` —
`_verify_integrity` raised at the first failure instead of collecting all
of them. -/
theorem claim_C6_counterexample :
    Validator.verify_file_entry c6Zip ("a.txt", c6Meta) =
      .error (.validation "File not found in package: a.txt") ∧
    Validator.verify_file_entry c6Zip ("b.txt", c6Meta) =
      .error (.validation "File not found in package: b.txt") ∧
    (Validator.validate_aifx_package c6Zip (some (.obj c6Kvs)) "p.aifx" true).errors =
      ["File not found in package: a.txt"] :=
  ⟨by rfl, by rfl, by rfl⟩


set_option maxHeartbeats 4000000 in
/-- C7: confirmed.  In `verify`'s per-member check, a byte-length mismatch on
the manifest's own entry is tolerated: when the declared digest equals the
recomputed canonical digest (mode `canonical_excludes_self`), the manifest
entry passes with `ok = true` and an "OK (bytes differ: ...)" note even
though the stored byte length differs from the declared one; whereas for any
other member, a byte-length mismatch alone fails the entry with
`ok = false` — even when its declared digest is exactly the member's true
hash. -/
theorem claim_C7 (z : Container) (m : Json) (mbl : Nat)
    (ikvs jkvs : List (String × Json)) (s t : String) (eb fb : Int)
    (member : String) (data : List Nat)
    (hA : asStr (jor (jget ikvs "sha256") (.str "")) = .ok s)
    (hsh : asciiLower (pyStrip s) =
      sha256Hex (utf8Bytes (dumpIndent2 0 (removeManifestEntry m))))
    (hby : (jget ikvs "bytes").getD .null = .num eb) (heb : 0 ≤ eb)
    (hmb : ¬ ((mbl : Int) = eb))
    (hmem : ¬ (member = "manifest.json"))
    (hzr : zread z member = some data)
    (hB : asStr (jor (jget jkvs "sha256") (.str "")) = .ok t)
    (hth : asciiLower (pyStrip t) = sha256Hex data)
    (hgb : (jget jkvs "bytes").getD .null = .num fb) (hfb0 : 0 ≤ fb)
    (hlen : ¬ ((data.length : Int) = fb)) :
    VerifyAifm.checkMember z m (.str "canonical_excludes_self") mbl
        "manifest.json" (.obj ikvs) =
      .ok ⟨true, "manifest.json", "OK (bytes differ: expected " ++ toString eb ++
        ", got " ++ toString mbl ++ ")"⟩ ∧
    VerifyAifm.checkMember z m (.str "canonical_excludes_self") mbl
        member (.obj jkvs) =
      .ok ⟨false, member, "bytes mismatch (expected " ++ toString fb ++
        ", got " ++ toString data.length ++ ")"⟩ := by
  constructor
  · simp only [VerifyAifm.checkMember, bind, Except.bind, pure, Except.pure]
    rw [hA, hby]
    show (if asciiLower (pyStrip s) = "" ∨ ¬ (asciiLower (pyStrip s)).length = 64
        then _ else _) = _
    rw [hsh]
    simp [sha256Hex_ne_empty, sha256Hex_length, jeqStr, VerifyAifm.canonical_manifest_bytes,
      hmb, show ¬ eb < 0 by omega]
  · simp only [VerifyAifm.checkMember, bind, Except.bind, pure, Except.pure]
    rw [hB, hgb]
    show (if asciiLower (pyStrip t) = "" ∨ ¬ (asciiLower (pyStrip t)).length = 64
        then _ else _) = _
    rw [hth]
    have hmemz : member ∈ znamelist z := by
      have hc := zread_contains hzr
      simpa using hc
    simp [sha256Hex_ne_empty, sha256Hex_length, hmem, hmemz, hzr,
      hlen, show ¬ fb < 0 by omega]

set_option maxRecDepth 1000000 in
/-- C7 witness: a concrete package whose manifest entry declares the correct
canonical digest but the wrong byte count (5 vs 7) still passes, while the
member `a.txt` with the correct digest but the wrong byte count (2 vs 9)
fails. -/
theorem claim_C7_witness :
    VerifyAifm.checkMember c7Z (.obj c7M) (.str "canonical_excludes_self") 5
        "manifest.json" (.obj c7Ikvs) =
      .ok ⟨true, "manifest.json", "OK (bytes differ: expected " ++ toString (7 : Int) ++
        ", got " ++ toString (5 : Nat) ++ ")"⟩ ∧
    VerifyAifm.checkMember c7Z (.obj c7M) (.str "canonical_excludes_self") 5
        "a.txt" (.obj c7Jkvs) =
      .ok ⟨false, "a.txt", "bytes mismatch (expected " ++ toString (9 : Int) ++
        ", got " ++ toString (utf8Bytes "hi").length ++ ")"⟩ :=
  claim_C7 c7Z (.obj c7M) 5 c7Ikvs c7Jkvs c7S c7T 7 9 "a.txt" (utf8Bytes "hi")
    (by rfl) (by rfl) (by rfl) (by decide) (by decide) (by decide) (by rfl)
    (by rfl) (by rfl) (by rfl) (by decide) (by decide)


set_option maxHeartbeats 4000000 in
/-- C1: As written, the round-trip claim is false for the `verify_aifm.py`
verifier it cites (see the counterexample: every `build_aifm` output fails
`verify` on every entry, because the builder writes `hashed_files` records
without the `bytes` field `verify` requires).  Amended and proved here: the
round-trip does hold
for the other cited verifier — for every staged input set whose stripped
title, creator name and contact are non-empty, validating a freshly built
AIFM package with `validate_aifx_package` (against the manifest the build
returned) reports it fully valid with zero errors, for any audio bytes,
any audio extension, with or without cover, any declaration and mode, and
any build time. -/
theorem claim_C1 (sfx : String) (ab : List Nat) (cb : Option (List Nat))
    (t cn cc d md pkg : String) (dr : Bool) (now : Nat × Nat × Nat × Nat × Nat × Nat)
    (ht : ¬ pyStrip t = "") (hn : ¬ pyStrip cn = "") (hc : ¬ pyStrip cc = "") :
    (Validator.validate_aifx_package
        (AifmPackager.build_aifm_zip sfx ab cb t cn cc d md now)
        (some (AifmPackager.build_aifm_manifest sfx ab cb t cn cc d md))
        pkg dr).valid = true ∧
    (Validator.validate_aifx_package
        (AifmPackager.build_aifm_zip sfx ab cb t cn cc d md now)
        (some (AifmPackager.build_aifm_manifest sfx ab cb t cn cc d md))
        pkg dr).errors = [] := by
  cases cb with
  | none =>
    constructor <;>
    simp [Validator.validate_aifx_package, Validator.validateBody,
      Validator.get_aifx_version, Validator.verify_integrity, Validator.verify_file_entry,
      Validator.canonical_manifest_bytes, cset, bool_is_true, pyStr, orStrip_str, pyStrip_idem,
      ht, hn, hc,
      AifmPackager.build_aifm_zip, AifmPackager.build_aifm_manifest_bytes,
      AifmPackager.build_aifm_manifest,
      AifmPackager.aifmManifest, AifmPackager.aifmHashedFiles0,
      AifmPackager.sha256_bytes, AifmPackager.canonical_manifest_bytes,
      bind, Except.bind, pure, Except.pure, List.forM,
      jget, jor, jtruthy, jeqStr, jset, pyGet, asStr, zread, znamelist,
      removeManifestEntry, sha256Hex_ne_empty,
      audioRel_ne_manifest, Ne.symm (audioRel_ne_manifest sfx),
      show asciiLower "sha256" = "sha256" from rfl]
  | some cbb =>
    constructor <;>
    simp [Validator.validate_aifx_package, Validator.validateBody,
      Validator.get_aifx_version, Validator.verify_integrity, Validator.verify_file_entry,
      Validator.canonical_manifest_bytes, cset, bool_is_true, pyStr, orStrip_str, pyStrip_idem,
      ht, hn, hc,
      AifmPackager.build_aifm_zip, AifmPackager.build_aifm_manifest_bytes,
      AifmPackager.build_aifm_manifest,
      AifmPackager.aifmManifest, AifmPackager.aifmHashedFiles0,
      AifmPackager.sha256_bytes, AifmPackager.canonical_manifest_bytes,
      bind, Except.bind, pure, Except.pure, List.forM,
      jget, jor, jtruthy, jeqStr, jset, pyGet, asStr, zread, znamelist,
      removeManifestEntry, sha256Hex_ne_empty,
      audioRel_ne_manifest, Ne.symm (audioRel_ne_manifest sfx),
      audioRel_ne_cover, Ne.symm (audioRel_ne_cover sfx),
      coverRel_ne_manifest, Ne.symm coverRel_ne_manifest,
      show asciiLower "sha256" = "sha256" from rfl]

/-- C1 witness: the amended round-trip at a concrete staged input set. -/
theorem claim_C1_witness :
    (¬ pyStrip "My Title" = "") ∧ (¬ pyStrip "Ann" = "") ∧
    (¬ pyStrip "ann@example.com" = "") ∧
    ((Validator.validate_aifx_package c1Zip (some c1M) "t.aifx" true).valid = true ∧
     (Validator.validate_aifx_package c1Zip (some c1M) "t.aifx" true).errors = []) :=
  ⟨by decide, by decide, by decide,
   claim_C1 ".mp3" (utf8Bytes "AU") (some (utf8Bytes "JPG"))
     "My Title" "Ann" "ann@example.com" "D" "human-directed-ai" "t.aifx" true
     (2024, 1, 1, 0, 0, 0) (by decide) (by decide) (by decide)⟩

set_option maxRecDepth 1000000 in
/-- C1 counterexample to the claim as written: the freshly built package
above, with correct hashes throughout, fails `verify` (verify_aifm.py) on
every declared entry — the builder never writes the `bytes` field that
`verify` requires, so build-then-verify is not error-free. -/
theorem claim_C1_counterexample :
    VerifyAifm.verify c1Zip c1M = .ok (false,
      [⟨false, "assets/audio.mp3", "missing/invalid expected bytes"⟩,
       ⟨false, "assets/cover.jpg", "missing/invalid expected bytes"⟩,
       ⟨false, "manifest.json", "missing/invalid expected bytes"⟩]) := by rfl


end Aifx
